import Mathlib

/-! # Education form, store, dropdown and carousel

A shallow embedding of the education-entry widgets: the validation schema of the
entry form (`AddEducationModal.jsx`), the record store (`educationStore.js`), the
dropdown control (`DropdownSelect.jsx`) and the carousel arithmetic
(`EducationSlider.jsx`), with the host-language primitives they rely on.
-/

namespace Education

/-! ## Host primitives: text -/

/-- White space and line terminators of the host language: the characters matched by
`\s` in a regular expression and skipped around a numeric literal by `Number`. -/
def isWhiteSpace (c : Char) : Bool :=
  let n := c.toNat
  n = 0x09 || n = 0x0A || n = 0x0B || n = 0x0C || n = 0x0D || n = 0x20 || n = 0xA0 ||
  n = 0x1680 || (0x2000 ≤ n && n ≤ 0x200A) || n = 0x2028 || n = 0x2029 || n = 0x202F ||
  n = 0x205F || n = 0x3000 || n = 0xFEFF

/-- The ASCII digits `0` to `9`: the class `\d` and the decimal digits of a numeric
literal. -/
def isDecimalDigit (c : Char) : Bool := 48 ≤ c.toNat && c.toNat ≤ 57

/-- Number of UTF-16 code units of one code point. -/
def utf16Units (c : Char) : Nat := if c.toNat < 0x10000 then 1 else 2

/-- The `length` of a host string: its number of UTF-16 code units. -/
def jsLength (s : String) : Nat := (s.toList.map utf16Units).sum

/-- The method `String.prototype.trim` on a list of characters. -/
def trimChars (cs : List Char) : List Char :=
  ((cs.dropWhile isWhiteSpace).reverse.dropWhile isWhiteSpace).reverse

/-- The method `String.prototype.trim`: the text without leading and trailing white space. -/
def jsTrim (s : String) : String := String.mk (trimChars s.toList)

/-- Truthiness of a string value: every string but the empty one. -/
def truthy (s : String) : Bool := !s.toList.isEmpty

/-! ## Host primitives: numbers -/

/-- A host number: not-a-number, an infinity, or a finite binary64 value `m / 2 ^ k`
(negative zero is identified with zero, which no comparison distinguishes). -/
inductive JSNumber where
  | nan
  | inf (negative : Bool)
  | fin (m : Int) (k : Nat)
  deriving DecidableEq, Repr

namespace JSNumber

/-- The test `Number.isInteger`. -/
def isInteger : JSNumber → Bool
  | fin m k => m % (2 ^ k : Int) = 0
  | _ => false

/-- The comparison `x < y` of two host numbers (false as soon as one is not-a-number). -/
def lt : JSNumber → JSNumber → Bool
  | fin m k, fin n l => m * 2 ^ l < n * 2 ^ k
  | fin _ _, inf negative => !negative
  | inf negative, fin _ _ => negative
  | inf a, inf b => a && !b
  | _, _ => false

/-- The comparison `x <= y` of two host numbers. -/
def le : JSNumber → JSNumber → Bool
  | fin m k, fin n l => m * 2 ^ l ≤ n * 2 ^ k
  | fin _ _, inf negative => !negative
  | inf negative, fin _ _ => negative
  | inf a, inf b => a || !b
  | _, _ => false

/-- An integer as a host number (exact below `2 ^ 53`). -/
def ofInt (n : Int) : JSNumber := fin n 0

/-- The integer a host number denotes, when it denotes one. -/
def toInt? : JSNumber → Option Int
  | fin m k => if m % (2 ^ k : Int) = 0 then some (m / (2 ^ k : Int)) else none
  | _ => none

end JSNumber

/-- Quotient `n / d` rounded to the nearest natural number, ties to the even one. -/
def divRoundHalfEven (n d : Nat) : Nat :=
  let q := n / d
  let r := n % d
  if 2 * r < d then q
  else if d < 2 * r then q + 1
  else if q % 2 = 0 then q else q + 1

/-- Auxiliary of `floorLog2`, by repeated halving. -/
def floorLog2Aux : Nat → Nat → Nat
  | 0, _ => 0
  | fuel + 1, n => if n < 2 then 0 else floorLog2Aux fuel (n / 2) + 1

/-- The position of the leading bit of `n`: `⌊log₂ n⌋` for `n > 0`. -/
def floorLog2 (n : Nat) : Nat := floorLog2Aux n n

/-- Whether `2 ^ e ≤ n / d`. -/
def pow2LeRatio (e : Int) (n d : Nat) : Bool :=
  if 0 ≤ e then d * 2 ^ e.toNat ≤ n else d ≤ n * 2 ^ (-e).toNat

/-- The binary exponent `⌊log₂ (n / d)⌋` of a positive ratio. -/
def ratioExponent (n d : Nat) : Int :=
  let e : Int := (floorLog2 n : Int) - (floorLog2 d : Int)
  if pow2LeRatio e n d then e else e - 1

/-- The binary64 value nearest to `± n / d` (round to nearest, ties to even), with
overflow to an infinity. -/
def roundToDouble (negative : Bool) (n d : Nat) : JSNumber :=
  if n = 0 then .fin 0 0
  else
    let p : Int := max (ratioExponent n d) (-1022) - 52
    let sign : Int := if negative then -1 else 1
    if 0 ≤ p then
      let r := divRoundHalfEven n (d * 2 ^ p.toNat)
      if 2 ^ 1024 ≤ r * 2 ^ p.toNat then .inf negative
      else .fin (sign * (r * 2 ^ p.toNat : Nat)) 0
    else
      .fin (sign * (divRoundHalfEven (n * 2 ^ (-p).toNat) d : Nat)) (-p).toNat

/-- Value of a string of digits in the given radix, most significant first. -/
def digitsValue (radix : Nat) (ds : List Nat) : Nat :=
  ds.foldl (fun acc d => radix * acc + d) 0

/-- Value of a digit character in radix up to sixteen, if it is one. -/
def digitOf (radix : Nat) (c : Char) : Option Nat :=
  let n := c.toNat
  let v : Option Nat :=
    if 48 ≤ n ∧ n ≤ 57 then some (n - 48)
    else if 97 ≤ n ∧ n ≤ 102 then some (n - 87)
    else if 65 ≤ n ∧ n ≤ 70 then some (n - 55)
    else none
  v.bind fun d => if d < radix then some d else none

/-- A non-empty run of digits of the radix covering the whole text, as its value. -/
def wholeDigits (radix : Nat) (cs : List Char) : Option Nat :=
  if cs.isEmpty then none
  else (cs.mapM (digitOf radix)).map (digitsValue radix)

/-- The optional exponent part of a decimal literal: nothing, or `e`/`E`, an optional
sign and digits up to the end of the text. -/
def exponentPart : List Char → Option Int
  | [] => some 0
  | c :: rest =>
    if c = 'e' ∨ c = 'E' then
      match rest with
      | '+' :: ds => (wholeDigits 10 ds).map fun v => (v : Int)
      | '-' :: ds => (wholeDigits 10 ds).map fun v => -(v : Int)
      | ds => (wholeDigits 10 ds).map fun v => (v : Int)
    else none

/-- An unsigned decimal literal `digits [. digits] [exponent]` or `. digits [exponent]`
as a pair `(mantissa, exponent)` denoting `mantissa * 10 ^ exponent`. -/
def unsignedDecimal (cs : List Char) : Option (Nat × Int) :=
  let intPart := cs.takeWhile isDecimalDigit
  let afterInt := cs.dropWhile isDecimalDigit
  let hasDot := afterInt.head? = some '.'
  let afterDot := if hasDot then afterInt.tail else afterInt
  let fracPart := if hasDot then afterDot.takeWhile isDecimalDigit else []
  let rest := if hasDot then afterDot.dropWhile isDecimalDigit else afterInt
  if intPart.isEmpty ∧ fracPart.isEmpty then none
  else
    (exponentPart rest).map fun x =>
      (digitsValue 10 ((intPart ++ fracPart).map fun c => c.toNat - 48), x - fracPart.length)

/-- The host number denoted by `± mantissa * 10 ^ exponent`. -/
def decimalValue (negative : Bool) (mantissa : Nat) (exponent : Int) : JSNumber :=
  if 0 ≤ exponent then roundToDouble negative (mantissa * 10 ^ exponent.toNat) 1
  else roundToDouble negative mantissa (10 ^ (-exponent).toNat)

/-- A decimal literal after its optional sign: `Infinity` or an unsigned decimal. -/
def unsignedLiteral (negative : Bool) (cs : List Char) : JSNumber :=
  if cs = "Infinity".toList then .inf negative
  else match unsignedDecimal cs with
    | some (m, x) => decimalValue negative m x
    | none => .nan

/-- A numeric literal without surrounding white space: a binary, octal or hexadecimal
integer, or a signed decimal literal. -/
def numericLiteral (cs : List Char) : JSNumber :=
  match cs with
  | '0' :: 'b' :: ds | '0' :: 'B' :: ds =>
    match wholeDigits 2 ds with
    | some v => roundToDouble false v 1
    | none => .nan
  | '0' :: 'o' :: ds | '0' :: 'O' :: ds =>
    match wholeDigits 8 ds with
    | some v => roundToDouble false v 1
    | none => .nan
  | '0' :: 'x' :: ds | '0' :: 'X' :: ds =>
    match wholeDigits 16 ds with
    | some v => roundToDouble false v 1
    | none => .nan
  | '+' :: rest => unsignedLiteral false rest
  | '-' :: rest => unsignedLiteral true rest
  | _ => unsignedLiteral false cs

/-- The conversion `Number(text)` of a string to a number, following the literal syntax
and the rounding to the nearest binary64 value of the host. White space around the
literal is skipped, the empty text is zero, and text that is no numeric literal is
not-a-number. -/
def toNumber (s : String) : JSNumber :=
  let cs := trimChars s.toList
  if cs.isEmpty then .fin 0 0 else numericLiteral cs

/-- The decimal digit character of `d < 10`. -/
def digitChar (d : Nat) : Char := Char.ofNat (48 + d)

/-- Auxiliary of `numeral`: the digits of `n` put in front of `acc`. -/
def natDigitsAux : Nat → Nat → List Char → List Char
  | 0, _, acc => acc
  | fuel + 1, n, acc =>
    if n < 10 then digitChar n :: acc
    else natDigitsAux fuel (n / 10) (digitChar (n % 10) :: acc)

/-- The decimal digits of a natural number, most significant first. -/
def natDigits (n : Nat) : List Char := natDigitsAux (n + 1) n []

/-- The text `String(n)` for a natural number `n` (below `10 ^ 21`, where the host switches to
exponent form): its decimal numeral. -/
def numeral (n : Nat) : String := String.mk (natDigits n)

/-! ## Host primitives: Unicode classes, regular expressions -/

/-- Major classes of the Unicode general category. -/
inductive GeneralCategory where
  | L | M | N | P | S | Z | C
  deriving DecidableEq, Repr

/-- The general category of the ASCII characters, from the Unicode character database. -/
def asciiCategory (c : Char) : GeneralCategory :=
  let n := c.toNat
  if (65 ≤ n ∧ n ≤ 90) ∨ (97 ≤ n ∧ n ≤ 122) then .L
  else if 48 ≤ n ∧ n ≤ 57 then .N
  else if n = 32 then .Z
  else if n < 32 ∨ n = 127 then .C
  else if n = 36 ∨ n = 43 ∨ n = 60 ∨ n = 61 ∨ n = 62 ∨ n = 94 ∨ n = 96 ∨ n = 124 ∨ n = 126 then .S
  else .P

/-- What the schema takes from its host: the year of the clock, read once when the
module is loaded, the Unicode category table behind `\p{..}`, and the URL parser. -/
structure Host where
  currentYear : Nat
  category : Char → GeneralCategory
  validUrl : String → Bool

/-- The character class `[\p{L}\p{N}\s]`. -/
def programClass (h : Host) (c : Char) : Bool :=
  h.category c = .L || h.category c = .N || isWhiteSpace c

/-- The pattern `/^[\p{L}\p{N}\s]+$/u`: one or more code points of the class, from start
to end of the text. -/
def programRegex (h : Host) (s : String) : Bool :=
  !s.toList.isEmpty && s.toList.all (programClass h)

/-- The pattern `/^\d{4}$/`: exactly four ASCII digits. -/
def fourDigitRegex (s : String) : Bool :=
  s.toList.length = 4 && s.toList.all isDecimalDigit

/-! ## The validation library

The combinators of the schema library (zod, version 3) that the schema of the form uses,
on typed values. A schema returns a status with the value and the issues: a failing check
or refinement leaves the value `dirty` and lets parsing go on, only a value of the wrong
type is `aborted`, and refinements are skipped on aborted values only. -/

/-- Outcome of parsing a value: accepted, accepted with issues, or given up. -/
inductive ParseStatus where
  | valid | dirty | aborted
  deriving DecidableEq, Repr

/-- One validation issue: the path of the offending value and a message. -/
structure ZodIssue where
  path : List String
  message : String
  deriving DecidableEq, Repr

/-- What a schema returns: the status, the value handed on and the issues raised. -/
structure ParseResult (α : Type) where
  status : ParseStatus
  value : α
  issues : List ZodIssue
  deriving Repr

/-- One chained check of a string schema. -/
structure StringCheck where
  passes : String → Bool
  message : String

/-- The check `.min(n, message)`. -/
def minLength (n : Nat) (message : String) : StringCheck :=
  ⟨fun s => n ≤ jsLength s, message⟩

/-- The check `.max(n, message)`. -/
def maxLength (n : Nat) (message : String) : StringCheck :=
  ⟨fun s => jsLength s ≤ n, message⟩

/-- The check `.regex(pattern, message)`. -/
def regexCheck (pattern : String → Bool) (message : String) : StringCheck :=
  ⟨pattern, message⟩

/-- The check `.url(message)`: the text must be accepted by the URL parser of the host. -/
def urlCheck (validUrl : String → Bool) (message : String) : StringCheck :=
  ⟨validUrl, message⟩

/-- The schema `z.string()` with its chained checks on a string: every failing check
raises its issue, in order; the value is passed on unchanged and is dirty, not aborted,
when a check fails. -/
def zString (checks : List StringCheck) (data : String) : ParseResult String :=
  let issues := (checks.filter fun c => !c.passes data).map fun c => ZodIssue.mk [] c.message
  ⟨if issues.isEmpty then .valid else .dirty, data, issues⟩

/-- The combinator `.refine(pred, message)`: nothing is done on an aborted value; otherwise
the predicate runs, also on a dirty value, and its failure raises one more issue. -/
def zRefine {α : Type} (pred : α → Bool) (message : String) (inner : ParseResult α) :
    ParseResult α :=
  match inner.status with
  | .aborted => inner
  | _ =>
    if pred inner.value then inner
    else ⟨.dirty, inner.value, inner.issues ++ [ZodIssue.mk [] message]⟩

/-- The combinator `.optional()`: an absent value is valid, a present one goes to the
inner schema. -/
def zOptional {α : Type} (schema : α → ParseResult α) : Option α → ParseResult (Option α)
  | none => ⟨.valid, none, []⟩
  | some a => let r := schema a; ⟨r.status, some r.value, r.issues⟩

/-- The schema `z.literal(lit)` on an optional string. -/
def zLiteral (lit : String) (data : Option String) : ParseResult (Option String) :=
  if data = some lit then ⟨.valid, data, []⟩
  else ⟨.aborted, data, [ZodIssue.mk [] "Invalid literal value"]⟩

/-- The combinator `.or(..)` on the results of its two options: the first valid result,
else the first dirty one with its issues, else a failure of the union. -/
def zOr {α : Type} (first second : ParseResult α) : ParseResult α :=
  if first.status = .valid then first
  else if second.status = .valid then second
  else if first.status = .dirty then first
  else if second.status = .dirty then second
  else ⟨.aborted, first.value, [ZodIssue.mk [] "Invalid input"]⟩

/-- Issues of a field, with the field name put in front of their paths. -/
def underKey (key : String) (issues : List ZodIssue) : List ZodIssue :=
  issues.map fun i => ZodIssue.mk (key :: i.path) i.message

/-- Status of an object from the statuses of its fields. -/
def mergeStatus (statuses : List ParseStatus) : ParseStatus :=
  if statuses.contains .aborted then .aborted
  else if statuses.contains .dirty then .dirty
  else .valid

/-- The combinator `.superRefine(check)`: nothing is done on an aborted value; otherwise
the issues the check adds are appended and make the value dirty. -/
def zSuperRefine {α : Type} (check : α → List ZodIssue) (inner : ParseResult α) :
    ParseResult α :=
  match inner.status with
  | .aborted => inner
  | _ =>
    let added := check inner.value
    if added.isEmpty then inner else ⟨.dirty, inner.value, inner.issues ++ added⟩

/-! ## The entry form: `AddEducationModal.jsx` -/

/-- Values of the entry form as the schema receives them. The required fields are
always text (the form initialises every field with a string and its controls produce
strings); the optional ones may be absent. -/
structure EducationInput where
  institution : String
  program : String
  startYear : String
  endYear : Option String
  studyForm : String
  documentTitle : Option String
  documentUrl : Option String
  deriving DecidableEq, Repr

/-- The message of both year rules. -/
def yearMessage (h : Host) : String := "Год от 1980 до " ++ numeral h.currentYear

/-- The predicate of `baseYearSchema`. -/
def baseYearRefinement (h : Host) (val : String) : Bool :=
  let n := toNumber val
  n.isInteger && JSNumber.le (.ofInt 1980) n && JSNumber.le n (.ofInt h.currentYear)

/-- The schema `baseYearSchema`. -/
def baseYearSchema (h : Host) (data : String) : ParseResult String :=
  zRefine (baseYearRefinement h) (yearMessage h) (zString [minLength 1 "Выберите год"] data)

/-- The schema of `institution`. -/
def institutionSchema (data : String) : ParseResult String :=
  zString [minLength 1 "Введите учебное заведение", maxLength 256 "Максимум 256 символов"] data

/-- The schema of `program`. -/
def programSchema (h : Host) (data : String) : ParseResult String :=
  zString [minLength 1 "Введите специальность", maxLength 256 "Максимум 256 символов",
    regexCheck (programRegex h) "Только буквы и цифры"] data

/-- The predicate of the `endYear` schema. -/
def endYearRefinement (h : Host) (val : Option String) : Bool :=
  match val with
  | none => true
  | some v =>
    !truthy v ||
      (fourDigitRegex v && JSNumber.le (.ofInt 1980) (toNumber v) &&
        JSNumber.le (toNumber v) (.ofInt h.currentYear))

/-- The schema of `endYear`. -/
def endYearSchema (h : Host) (data : Option String) : ParseResult (Option String) :=
  zOr (zRefine (endYearRefinement h) (yearMessage h) (zOptional (zString []) data))
    (zLiteral "" data)

/-- The schema of `studyForm`. -/
def studyFormSchema (data : String) : ParseResult String :=
  zString [minLength 1 "Выберите форму обучения"] data

/-- The schema of `documentTitle`. -/
def documentTitleSchema (data : Option String) : ParseResult (Option String) :=
  zOptional (zString [minLength 1 "Введите название документа",
    maxLength 256 "Максимум 256 символов"]) data

/-- The schema of `documentUrl`. -/
def documentUrlSchema (h : Host) (data : Option String) : ParseResult (Option String) :=
  zOr (zOptional (zString [urlCheck h.validUrl
    "Введите корректную ссылку на документ (https://...)"]) data) (zLiteral "" data)

/-- The object schema before `superRefine`: each field goes to its schema in the order
of the shape, and the parsed object is rebuilt from the values they hand on. -/
def objectSchema (h : Host) (data : EducationInput) : ParseResult EducationInput :=
  let institution := institutionSchema data.institution
  let program := programSchema h data.program
  let startYear := baseYearSchema h data.startYear
  let endYear := endYearSchema h data.endYear
  let studyForm := studyFormSchema data.studyForm
  let documentTitle := documentTitleSchema data.documentTitle
  let documentUrl := documentUrlSchema h data.documentUrl
  { status := mergeStatus [institution.status, program.status, startYear.status,
      endYear.status, studyForm.status, documentTitle.status, documentUrl.status]
    value :=
      { institution := institution.value, program := program.value,
        startYear := startYear.value, endYear := endYear.value,
        studyForm := studyForm.value, documentTitle := documentTitle.value,
        documentUrl := documentUrl.value }
    issues := underKey "institution" institution.issues ++ underKey "program" program.issues ++
      underKey "startYear" startYear.issues ++ underKey "endYear" endYear.issues ++
      underKey "studyForm" studyForm.issues ++ underKey "documentTitle" documentTitle.issues ++
      underKey "documentUrl" documentUrl.issues }

/-- The issue of the cross-field rule. -/
def crossFieldIssue : ZodIssue :=
  ⟨["endYear"], "Год окончания не может быть раньше года начала"⟩

/-- The check given to `superRefine`. -/
def crossFieldCheck (data : EducationInput) : List ZodIssue :=
  match data.endYear with
  | none => []
  | some endYear =>
    if truthy endYear && truthy data.startYear then
      if (toNumber endYear).lt (toNumber data.startYear) then [crossFieldIssue] else []
    else []

/-- The schema `educationSchema`. -/
def educationSchema (h : Host) (data : EducationInput) : ParseResult EducationInput :=
  zSuperRefine crossFieldCheck (objectSchema h data)

/-- The schema applied to the values of the form, `educationSchema.safeParse(data)`: the
parsed values when the schema finds the input valid, else every issue it raised, in
order. The form reads this through `resolver`. -/
def validate (h : Host) (data : EducationInput) : Except (List ZodIssue) EducationInput :=
  let r := educationSchema h data
  if r.status = .valid then .ok r.value else .error r.issues

/-- The key of an issue in the errors of the form: `path.join('.')`. -/
def joinPath (path : List String) : String := ".".intercalate path

/-- The loop of the resolver over the issues of the schema, `errors` being the entries made
so far: an issue makes an entry only when its key has none yet. -/
def parseErrorSchemaAux : List ZodIssue → List ZodIssue → List ZodIssue
  | errors, [] => errors
  | errors, issue :: rest =>
    if errors.any (fun e => joinPath e.path = joinPath issue.path) then
      parseErrorSchemaAux errors rest
    else parseErrorSchemaAux (errors ++ [issue]) rest

/-- The errors the resolver makes of the issues of the schema: for every path the first
issue raised on it, in the order of first appearance. -/
def parseErrorSchema (issues : List ZodIssue) : List ZodIssue :=
  parseErrorSchemaAux [] issues

/-- The resolver of the form, `zodResolver(educationSchema)`: the parsed values when the
schema finds the input valid, else one error per field, the first issue of its path. -/
def resolver (h : Host) (data : EducationInput) : Except (List ZodIssue) EducationInput :=
  match validate h data with
  | .ok values => .ok values
  | .error issues => .error (parseErrorSchema issues)

/-- The effect of the form on its two year fields, as the function
`(startYear, endYear) -> endYear'`: the value it leaves in `endYear`. -/
def clearEndYear (startYear endYear : String) : String :=
  if truthy startYear && truthy endYear && (toNumber endYear).lt (toNumber startYear) then ""
  else endYear

/-- The two year fields of the form as `watch` reports them. -/
structure YearFields where
  startYear : String
  endYear : String
  deriving DecidableEq, Repr

/-- One firing of the year effect on the fields of the form: only `setValue("endYear", "")`
is ever called. -/
def yearEffect (fields : YearFields) : YearFields :=
  { fields with endYear := clearEndYear fields.startYear fields.endYear }

/-! ## The record store: `educationStore.js` -/

/-- An object as the list of its property assignments in order; a later assignment of a
name overrides an earlier one. -/
abbrev JSObject := List (String × String)

namespace JSObject

/-- The value of property `key`, if the object has it. -/
def get : JSObject → String → Option String
  | [], _ => none
  | (k, v) :: rest, key =>
    match get rest key with
    | some w => some w
    | none => if k = key then some v else none

/-- Assignment `o[key] = value`: an existing property keeps its place. -/
def set (o : JSObject) (key value : String) : JSObject :=
  if o.any (fun p => p.1 = key) then o.map (fun p => if p.1 = key then (key, value) else p)
  else o ++ [(key, value)]

/-- The object literal `{ ...target, ...source }` for an object `target` under
construction: the properties of `source` are assigned in order. -/
def spread (target source : JSObject) : JSObject :=
  source.foldl (fun acc p => set acc p.1 p.2) target

end JSObject

/-- The state of the store. -/
structure StoreState where
  educations : List JSObject
  deriving DecidableEq, Repr

/-- The initial state of the store. -/
def StoreState.initial : StoreState := ⟨[]⟩

/-- The action `addEducation`; `uuid` is the identifier `crypto.randomUUID()` returns
for this call. -/
def addEducation (uuid : String) (education : JSObject) (state : StoreState) : StoreState :=
  { educations := state.educations ++ [JSObject.spread [("id", uuid)] education] }

/-- The identifiers of the stored records (absent when a record has none). -/
def StoreState.ids (state : StoreState) : List (Option String) :=
  state.educations.map fun r => JSObject.get r "id"

/-- The parsed form values as the object handed to `onSubmit`: the properties in the
order of the shape, an absent optional one left out. -/
def EducationInput.toObject (d : EducationInput) : JSObject :=
  [("institution", d.institution), ("program", d.program), ("startYear", d.startYear)] ++
    (d.endYear.toList.map fun v => ("endYear", v)) ++ [("studyForm", d.studyForm)] ++
    (d.documentTitle.toList.map fun v => ("documentTitle", v)) ++
    (d.documentUrl.toList.map fun v => ("documentUrl", v))

/-- Submission of the form, `handleSubmit(onSubmit)`: the store is changed only when the
resolver succeeds, by `addEducation` on the parsed values. -/
def submit (h : Host) (uuid : String) (data : EducationInput) (state : StoreState) :
    Except (List ZodIssue) StoreState :=
  match validate h data with
  | .ok values => .ok (addEducation uuid values.toObject state)
  | .error issues => .error issues

/-! ## The carousel: `EducationSlider.jsx` -/

/-- The measured layout, for integer measures. -/
structure Layout where
  cardWidth : Int
  gap : Int
  viewportWidth : Int
  deriving DecidableEq, Repr

/-- The memo `visibleCount`. The division is only reached with a positive `step`, where
integer division is the floor of the quotient. -/
def visibleCount (layout : Layout) : Int :=
  let step := layout.cardWidth + layout.gap
  if layout.viewportWidth = 0 ∨ step ≤ 0 then 1
  else max 1 ((layout.viewportWidth + layout.gap) / step)

/-- The value `maxIndex`, for `totalCards` cards. -/
def maxIndex (totalCards : Nat) (layout : Layout) : Int :=
  max 0 ((totalCards : Int) - visibleCount layout)

/-- The handler `goPrev`, as the index it leaves. -/
def goPrev (currentIndex : Int) : Int :=
  if currentIndex > 0 then currentIndex - 1 else currentIndex

/-- The handler `goNext`, as the index it leaves. -/
def goNext (maxIndex currentIndex : Int) : Int :=
  if currentIndex < maxIndex then currentIndex + 1 else currentIndex

/-- The updater of the clamp effect, `(i) => Math.min(i, maxIndex)`. -/
def clampIndex (maxIndex currentIndex : Int) : Int := min currentIndex maxIndex

/-- The carousel as its index with what `maxIndex` is computed from: the number of cards
and the measured layout. -/
structure SliderState where
  currentIndex : Int
  totalCards : Nat
  layout : Layout
  deriving DecidableEq, Repr

/-- What can happen to the carousel: a click on an arrow, or a change of the data or of
the layout, after which the clamp effect runs when `maxIndex` has changed. -/
inductive SliderEvent where
  | prevClick
  | nextClick
  | change (totalCards : Nat) (layout : Layout)
  deriving DecidableEq, Repr

/-- The carousel as first rendered: index 0. -/
def SliderState.initial (totalCards : Nat) (layout : Layout) : SliderState :=
  ⟨0, totalCards, layout⟩

/-- The reaction of the carousel to one event. On a change the clamp effect runs only when
`maxIndex` differs from its previous value. -/
def SliderState.step (s : SliderState) : SliderEvent → SliderState
  | .prevClick => { s with currentIndex := goPrev s.currentIndex }
  | .nextClick => { s with currentIndex := goNext (maxIndex s.totalCards s.layout) s.currentIndex }
  | .change totalCards layout =>
    { currentIndex :=
        if maxIndex totalCards layout = maxIndex s.totalCards s.layout then s.currentIndex
        else clampIndex (maxIndex totalCards layout) s.currentIndex
      totalCards := totalCards
      layout := layout }

/-- The carousel after a sequence of events. -/
def SliderState.run (s : SliderState) (events : List SliderEvent) : SliderState :=
  events.foldl SliderState.step s

/-! ## The dropdown: `DropdownSelect.jsx` -/

/-- The text `String(n)` for an integer `n` (below `10 ^ 21` in absolute value, where the
host switches to exponent form): a minus sign when negative, then the decimal numeral. -/
def intNumeral (n : Int) : String :=
  if n < 0 then "-" ++ numeral n.natAbs else numeral n.natAbs

/-- The value of an option as the callers of the control give it: text, or an integer
below `10 ^ 21` in absolute value, which the host writes with all its digits. -/
inductive OptionValue where
  | text (s : String)
  | integer (n : Int) (small : n.natAbs < 10 ^ 21)
  deriving DecidableEq, Repr

/-- The text `String(value)` for the value of an option: a text is itself, an integer its
decimal numeral. -/
def OptionValue.toText : OptionValue → String
  | .text s => s
  | .integer n _ => intNumeral n

/-- One option `{ value, label }`. -/
structure DropdownOption where
  value : OptionValue
  label : String
  deriving DecidableEq, Repr

/-- The properties of the control other than `value` and `onChange`, which belong to its
owner; `options` is absent when the caller supplies none. -/
structure DropdownProps where
  placeholder : String
  options : Option (List DropdownOption)
  allowEmpty : Bool
  generateYears : Bool
  yearStart : Int
  yearEnd : Int
  deriving DecidableEq, Repr

/-- The option `{ value: String(year), label: String(year) }`. -/
def yearOption (year : Int) : DropdownOption :=
  ⟨.text (intNumeral year), intNumeral year⟩

/-- The loop `for (let year = yearEnd; year >= yearStart; year--)` of `yearOptions`, from
the current `year` with the options pushed so far; the fuel bounds the rounds left. -/
def yearLoop : Nat → Int → Int → List DropdownOption → List DropdownOption
  | 0, _, _, years => years
  | fuel + 1, year, yearStart, years =>
    if year ≥ yearStart then yearLoop fuel (year - 1) yearStart (years ++ [yearOption year])
    else years

/-- The memo `yearOptions`: the options of the caller (none when absent) unless years are
to be generated, else the years from `yearEnd` down to `yearStart`. The loop is given one
round of fuel per year of the range. -/
def yearOptions (p : DropdownProps) : List DropdownOption :=
  if !p.generateYears then p.options.getD []
  else yearLoop (p.yearEnd - p.yearStart + 1).toNat p.yearEnd p.yearStart []

/-- The memo `selected`: the first of `yearOptions` whose value, as text, is `value`. -/
def selected (p : DropdownProps) (value : String) : Option DropdownOption :=
  (yearOptions p).find? fun o => o.value.toText = value

/-- The text on the button: the label of `selected`, else the placeholder. -/
def buttonText (p : DropdownProps) (value : String) : String :=
  match selected p value with
  | some o => o.label
  | none => p.placeholder

/-- A button of the open menu: the "no selection" entry or an option. -/
inductive MenuEntry where
  | noSelection
  | option (opt : DropdownOption)
  deriving DecidableEq, Repr

/-- The text a menu button passes to `onChange` when clicked. -/
def MenuEntry.changeText : MenuEntry → String
  | .noSelection => ""
  | .option opt => opt.value.toText

/-- The buttons of the open menu, in order: the "no selection" entry under `allowEmpty`,
then one button per element of `options`; rendering fails when `options` is absent. -/
def menuEntries (p : DropdownProps) : Option (List MenuEntry) :=
  p.options.map fun os => (if p.allowEmpty then [MenuEntry.noSelection] else []) ++
    os.map MenuEntry.option

/-- What can happen to the control: a click on its button, a `mousedown` on the document
(inside the control or not), a `keydown` on the document, a click on a menu button. -/
inductive DropdownEvent where
  | toggleClick
  | pointerDown (inside : Bool)
  | keyDown (key : String)
  | entryClick (index : Nat)
  deriving DecidableEq, Repr

/-- The control with its owner: the flag `open`, the owner's `value`, which the owner sets
to the text its change callback receives (as the field controllers of the form do), the
texts the change callback has been called with, oldest first, and whether rendering has
thrown, after which the control is unmounted and no handler of it exists any more. -/
structure DropdownState where
  isOpen : Bool
  value : String
  changes : List String
  crashed : Bool
  deriving DecidableEq, Repr

/-- The control as first rendered for an owner holding `value`: closed, which renders
whatever the properties are. -/
def DropdownState.initial (value : String) : DropdownState := ⟨false, value, [], false⟩

/-- Whether rendering throws: the menu of an open control maps over `options`, a
`TypeError` when the caller supplies none; a closed control has no menu. -/
def renderThrows (p : DropdownProps) (isOpen : Bool) : Bool :=
  isOpen && (menuEntries p).isNone

/-- The handler of one event on a rendered control. The document listeners exist only
while the control is open, and so do the menu buttons. -/
def DropdownState.handle (p : DropdownProps) (s : DropdownState) :
    DropdownEvent → DropdownState
  | .toggleClick => { s with isOpen := !s.isOpen }
  | .pointerDown inside =>
    if s.isOpen && !inside then { s with isOpen := false } else s
  | .keyDown key =>
    if s.isOpen && key = "Escape" then { s with isOpen := false } else s
  | .entryClick index =>
    if s.isOpen then
      match (menuEntries p).bind fun entries => entries[index]? with
      | some entry =>
        { s with isOpen := false, value := entry.changeText,
                 changes := s.changes ++ [entry.changeText] }
      | none => s
    else s

/-- The reaction of the control to one event: nothing once rendering has thrown; else the
handler runs and the control is rendered again with the state it leaves. -/
def DropdownState.step (p : DropdownProps) (s : DropdownState) (event : DropdownEvent) :
    DropdownState :=
  if s.crashed then s
  else
    let t := s.handle p event
    { t with crashed := renderThrows p t.isOpen }

/-- The control after a sequence of events. -/
def DropdownState.run (p : DropdownProps) (s : DropdownState) (events : List DropdownEvent) :
    DropdownState :=
  events.foldl (DropdownState.step p) s

/-! ## Sample values -/

deriving instance DecidableEq for Except

/-- A host for examples: the clock in 2026, a category table for ASCII and the Cyrillic
letters (other code points count as white space when they are, else as unassigned), and
a URL check looking for a scheme. -/
def sampleHost : Host where
  currentYear := 2026
  category := fun c =>
    if c.toNat < 128 then asciiCategory c
    else if 0x0410 ≤ c.toNat ∧ c.toNat ≤ 0x044F then .L
    else if isWhiteSpace c then .Z else .C
  validUrl := fun s => s.startsWith "https://" || s.startsWith "http://"

/-- A well-formed form input. -/
def sampleInput : EducationInput where
  institution := "MIT"
  program := "Math 101"
  startYear := "2020"
  endYear := some "2021"
  studyForm := "Очная"
  documentTitle := some "Диплом.pdf"
  documentUrl := some ""

/-- A form input that meets every field rule, with white space around the institution. -/
def paddedInput : EducationInput := { sampleInput with institution := " MIT " }

/-- A dropdown as the form configures one, with the "no selection" entry. -/
def sampleProps : DropdownProps where
  placeholder := "Не выбран"
  options := some [⟨.text "2026", "2026"⟩, ⟨.integer 2025 (by decide), "2025"⟩,
    ⟨.integer (-7) (by decide), "seven below"⟩]
  allowEmpty := true
  generateYears := false
  yearStart := 1980
  yearEnd := 2026

/-- A dropdown configured for the years 2024 to 2026, whose caller also supplies an option
of its own. -/
def sampleYearProps : DropdownProps where
  placeholder := "Не выбран"
  options := some [⟨.text "x", "X"⟩]
  allowEmpty := false
  generateYears := true
  yearStart := 2024
  yearEnd := 2026

/-- A dropdown whose caller supplies no options. -/
def sampleBareProps : DropdownProps := { sampleProps with options := none }

/-! ## Facts about the validation library -/

theorem zString_value (checks : List StringCheck) (data : String) :
    (zString checks data).value = data := rfl

theorem zString_status_ne_aborted (checks : List StringCheck) (data : String) :
    (zString checks data).status ≠ .aborted := by
  unfold zString
  dsimp only
  split <;> simp

theorem zString_valid_iff (checks : List StringCheck) (data : String) :
    (zString checks data).status = .valid ↔ ∀ c ∈ checks, c.passes data = true := by
  unfold zString
  dsimp only
  split
  · rename_i hnil
    simp only [List.isEmpty_eq_true, List.map_eq_nil_iff, List.filter_eq_nil_iff] at hnil
    simp only [true_iff]
    intro c hc
    simpa using hnil c hc
  · rename_i hne
    simp only [List.isEmpty_eq_true, List.map_eq_nil_iff, List.filter_eq_nil_iff] at hne
    simp only [reduceCtorEq, false_iff]
    intro hall
    apply hne
    intro c hc
    simp [hall c hc]

theorem zString_issues_nil_iff (checks : List StringCheck) (data : String) :
    (zString checks data).issues = [] ↔ (zString checks data).status = .valid := by
  unfold zString
  dsimp only
  split
  · rename_i hnil
    simp only [List.isEmpty_eq_true] at hnil
    simp [hnil]
  · rename_i hne
    simp only [List.isEmpty_eq_true] at hne
    simp only [reduceCtorEq, iff_false]
    exact hne

theorem zRefine_value {α : Type} (pred : α → Bool) (message : String) (inner : ParseResult α) :
    (zRefine pred message inner).value = inner.value := by
  unfold zRefine
  split
  · rfl
  · split <;> rfl

theorem zRefine_status_ne_aborted {α : Type} (pred : α → Bool) (message : String)
    (inner : ParseResult α) (hinner : inner.status ≠ .aborted) :
    (zRefine pred message inner).status ≠ .aborted := by
  unfold zRefine
  split
  · rename_i hab
    exact absurd hab hinner
  · split
    · exact hinner
    · simp

theorem zRefine_valid_iff {α : Type} (pred : α → Bool) (message : String)
    (inner : ParseResult α) :
    (zRefine pred message inner).status = .valid ↔
      inner.status = .valid ∧ pred inner.value = true := by
  unfold zRefine
  split
  · rename_i hab
    simp [hab]
  · split
    · rename_i hp
      simp [hp]
    · rename_i hp
      simp [hp]

theorem zOptional_value {α : Type} (schema : α → ParseResult α)
    (hvalue : ∀ a, (schema a).value = a) (data : Option α) :
    (zOptional schema data).value = data := by
  cases data with
  | none => rfl
  | some a => simp [zOptional, hvalue]

theorem zOptional_status_ne_aborted {α : Type} (schema : α → ParseResult α)
    (hschema : ∀ a, (schema a).status ≠ .aborted) (data : Option α) :
    (zOptional schema data).status ≠ .aborted := by
  cases data with
  | none => simp [zOptional]
  | some a => simpa [zOptional] using hschema a

theorem zLiteral_value (lit : String) (data : Option String) :
    (zLiteral lit data).value = data := by
  unfold zLiteral
  split <;> rfl

theorem zOr_value {α : Type} (first second : ParseResult α) (a : α)
    (hfirst : first.value = a) (hsecond : second.value = a) : (zOr first second).value = a := by
  unfold zOr
  split_ifs <;> assumption

theorem zOr_status_ne_aborted {α : Type} (first second : ParseResult α)
    (hfirst : first.status ≠ .aborted) : (zOr first second).status ≠ .aborted := by
  unfold zOr
  split_ifs with h1 h2 h3 h4
  · exact hfirst
  · simp [h2]
  · exact hfirst
  · simp [h4]
  · cases hs : first.status <;> simp_all

theorem mergeStatus_ne_aborted (statuses : List ParseStatus)
    (hall : ∀ s ∈ statuses, s ≠ .aborted) : mergeStatus statuses ≠ .aborted := by
  unfold mergeStatus
  split_ifs with h1 h2
  · simp only [List.contains_iff_exists_mem_beq, beq_iff_eq] at h1
    obtain ⟨s, hs, rfl⟩ := h1
    exact absurd rfl (hall _ hs)
  · simp
  · simp

theorem mergeStatus_valid_iff (statuses : List ParseStatus) :
    mergeStatus statuses = .valid ↔ ∀ s ∈ statuses, s = .valid := by
  unfold mergeStatus
  split_ifs with h1 h2
  · simp only [List.contains_iff_exists_mem_beq, beq_iff_eq] at h1
    obtain ⟨s, hs, rfl⟩ := h1
    simp only [reduceCtorEq, false_iff]
    intro hall
    exact absurd (hall _ hs) (by simp)
  · simp only [List.contains_iff_exists_mem_beq, beq_iff_eq] at h2
    obtain ⟨s, hs, rfl⟩ := h2
    simp only [reduceCtorEq, false_iff]
    intro hall
    exact absurd (hall _ hs) (by simp)
  · simp only [true_iff]
    intro s hs
    cases s
    · rfl
    · exact absurd (List.elem_eq_true_of_mem hs) h2
    · exact absurd (List.elem_eq_true_of_mem hs) h1

/-! ## Facts about the schema of the entry form -/

theorem endYearSchema_value (h : Host) (data : Option String) :
    (endYearSchema h data).value = data := by
  unfold endYearSchema
  apply zOr_value
  · rw [zRefine_value]
    exact zOptional_value _ (zString_value _) data
  · exact zLiteral_value _ data

theorem endYearSchema_status_ne_aborted (h : Host) (data : Option String) :
    (endYearSchema h data).status ≠ .aborted := by
  unfold endYearSchema
  apply zOr_status_ne_aborted
  apply zRefine_status_ne_aborted
  exact zOptional_status_ne_aborted _ (zString_status_ne_aborted _) data

theorem documentUrlSchema_value (h : Host) (data : Option String) :
    (documentUrlSchema h data).value = data := by
  unfold documentUrlSchema
  apply zOr_value
  · exact zOptional_value _ (zString_value _) data
  · exact zLiteral_value _ data

theorem documentUrlSchema_status_ne_aborted (h : Host) (data : Option String) :
    (documentUrlSchema h data).status ≠ .aborted := by
  unfold documentUrlSchema
  apply zOr_status_ne_aborted
  exact zOptional_status_ne_aborted _ (zString_status_ne_aborted _) data

theorem baseYearSchema_status_ne_aborted (h : Host) (data : String) :
    (baseYearSchema h data).status ≠ .aborted :=
  zRefine_status_ne_aborted _ _ _ (zString_status_ne_aborted _ _)

/-- The object schema hands on the values it was given. -/
theorem objectSchema_value (h : Host) (data : EducationInput) :
    (objectSchema h data).value = data := by
  cases data
  simp only [objectSchema, institutionSchema, programSchema, studyFormSchema,
    documentTitleSchema, baseYearSchema, zString_value, zRefine_value, endYearSchema_value,
    documentUrlSchema_value, zOptional_value _ (zString_value _)]

/-- On form values the object schema never gives up, so that `superRefine` always runs. -/
theorem objectSchema_status_ne_aborted (h : Host) (data : EducationInput) :
    (objectSchema h data).status ≠ .aborted := by
  unfold objectSchema
  apply mergeStatus_ne_aborted
  intro s hs
  simp only [List.mem_cons, List.mem_singleton, List.not_mem_nil, or_false] at hs
  rcases hs with rfl | rfl | rfl | rfl | rfl | rfl | rfl
  · exact zString_status_ne_aborted _ _
  · exact zString_status_ne_aborted _ _
  · exact baseYearSchema_status_ne_aborted _ _
  · exact endYearSchema_status_ne_aborted _ _
  · exact zString_status_ne_aborted _ _
  · exact zOptional_status_ne_aborted _ (zString_status_ne_aborted _) _
  · exact documentUrlSchema_status_ne_aborted _ _

/-- The object schema finds the input valid exactly when every field schema does. -/
theorem objectSchema_valid_iff (h : Host) (data : EducationInput) :
    (objectSchema h data).status = .valid ↔
      (institutionSchema data.institution).status = .valid ∧
      (programSchema h data.program).status = .valid ∧
      (baseYearSchema h data.startYear).status = .valid ∧
      (endYearSchema h data.endYear).status = .valid ∧
      (studyFormSchema data.studyForm).status = .valid ∧
      (documentTitleSchema data.documentTitle).status = .valid ∧
      (documentUrlSchema h data.documentUrl).status = .valid := by
  unfold objectSchema
  simp only [mergeStatus_valid_iff, List.mem_cons, List.mem_singleton, List.not_mem_nil,
    or_false, forall_eq_or_imp, forall_eq]

/-- The resolver in closed form: the input itself when every field schema finds its field
valid and the cross-field check adds nothing, else the issues of the fields followed by
those of the cross-field check. -/
theorem validate_eq (h : Host) (data : EducationInput) :
    validate h data =
      if (objectSchema h data).status = .valid ∧ crossFieldCheck data = [] then .ok data
      else .error ((objectSchema h data).issues ++ crossFieldCheck data) := by
  have hval := objectSchema_value h data
  have hab := objectSchema_status_ne_aborted h data
  unfold validate educationSchema zSuperRefine
  split
  · rename_i heq
    exact absurd heq hab
  · rw [hval]
    by_cases hc : crossFieldCheck data = []
    · simp only [hc, List.isEmpty_nil, if_true, and_true, List.append_nil, hval]
    · have hne : (crossFieldCheck data).isEmpty = false := by
        cases hcc : crossFieldCheck data with
        | nil => exact absurd hcc hc
        | cons a l => rfl
      simp [hc, hne]

theorem truthy_iff (s : String) : truthy s = true ↔ s ≠ "" := by
  unfold truthy
  cases s with
  | mk cs =>
    cases cs with
    | nil => simp
    | cons c cs => simp [String.ext_iff]

/-- The cross-field check adds its issue when both years are non-empty and the end year
is numerically below the start year. -/
theorem crossFieldCheck_of_lt (data : EducationInput) (e : String)
    (hEnd : data.endYear = some e) (hePresent : e ≠ "") (hsPresent : data.startYear ≠ "")
    (hlt : (toNumber e).lt (toNumber data.startYear) = true) :
    crossFieldCheck data = [crossFieldIssue] := by
  unfold crossFieldCheck
  rw [hEnd]
  simp [(truthy_iff e).2 hePresent, (truthy_iff data.startYear).2 hsPresent, hlt]

/-- The cross-field check adds nothing exactly when the end year is absent, or a year is
empty, or the end year is not numerically below the start year. -/
theorem crossFieldCheck_eq_nil_iff (data : EducationInput) :
    crossFieldCheck data = [] ↔
      ∀ e, data.endYear = some e → e ≠ "" → data.startYear ≠ "" →
        (toNumber e).lt (toNumber data.startYear) = false := by
  unfold crossFieldCheck
  cases hEnd : data.endYear with
  | none => simp
  | some e =>
    by_cases he : e = ""
    · subst he
      simp [truthy]
    · by_cases hs : data.startYear = ""
      · simp [hs, truthy]
      · simp only [(truthy_iff e).2 he, (truthy_iff data.startYear).2 hs, Bool.and_self,
          if_true, Option.some.injEq, forall_eq']
        cases hlt : (toNumber e).lt (toNumber data.startYear) <;> simp [he, hs]

theorem jsLength_pos_iff (s : String) : 1 ≤ jsLength s ↔ s ≠ "" := by
  cases s with
  | mk cs =>
    cases cs with
    | nil => simp [jsLength]
    | cons c cs =>
      have hu : 1 ≤ utf16Units c := by unfold utf16Units; split <;> simp
      simp only [jsLength, String.toList, List.map_cons, List.sum_cons, ne_eq, String.ext_iff,
        reduceCtorEq, not_false_eq_true, iff_true]
      omega

theorem baseYearSchema_valid_iff (h : Host) (s : String) :
    (baseYearSchema h s).status = .valid ↔ s ≠ "" ∧ baseYearRefinement h s = true := by
  unfold baseYearSchema
  rw [zRefine_valid_iff, zString_valid_iff, zString_value]
  simp [minLength, jsLength_pos_iff]

/-- C1. When both years are present, each satisfies its own rule (the start year an
integer in [1980, currentYear], the end year four digits in that range), and the end year
is numerically below the start year, `validate` fails and its issues contain the
cross-field issue on `endYear`, whatever the other fields are. -/
theorem validate_cross_field_error (h : Host) (data : EducationInput) (e : String)
    (hEnd : data.endYear = some e) (hePresent : e ≠ "")
    (hStartRule : (baseYearSchema h data.startYear).status = .valid)
    (hEndRule : (endYearSchema h data.endYear).status = .valid)
    (hlt : (toNumber e).lt (toNumber data.startYear) = true) :
    ∃ issues, validate h data = .error issues ∧ crossFieldIssue ∈ issues ∧
      crossFieldIssue.path = ["endYear"] := by
  have _ := hEndRule
  have hsPresent : data.startYear ≠ "" := ((baseYearSchema_valid_iff h _).1 hStartRule).1
  have hcross := crossFieldCheck_of_lt data e hEnd hePresent hsPresent hlt
  refine ⟨(objectSchema h data).issues ++ [crossFieldIssue], ?_, by simp, rfl⟩
  rw [validate_eq, hcross]
  simp

theorem validate_cross_field_error_witness :
    ∃ issues, validate sampleHost { sampleInput with endYear := some "2019" } = .error issues ∧
      crossFieldIssue ∈ issues ∧ crossFieldIssue.path = ["endYear"] :=
  validate_cross_field_error sampleHost { sampleInput with endYear := some "2019" } "2019" rfl
    (by decide) (by decide) (by decide) (by decide)

/-! ## Facts about numbers and numerals -/

theorem floorLog2Aux_spec (fuel : Nat) : ∀ n : Nat, 0 < n → n ≤ fuel →
    2 ^ floorLog2Aux fuel n ≤ n ∧ n < 2 ^ (floorLog2Aux fuel n + 1) := by
  induction fuel with
  | zero => intro n hn hle; omega
  | succ fuel ih =>
    intro n hn hle
    unfold floorLog2Aux
    split
    · rename_i hlt
      simp only [pow_zero, zero_add, pow_one]
      omega
    · rename_i hge
      have hhalf : 0 < n / 2 := by omega
      have hfuel : n / 2 ≤ fuel := by omega
      obtain ⟨hlo, hhi⟩ := ih (n / 2) hhalf hfuel
      rw [pow_succ, pow_succ] at *
      constructor <;> omega

theorem floorLog2_spec (n : Nat) (hn : 0 < n) :
    2 ^ floorLog2 n ≤ n ∧ n < 2 ^ (floorLog2 n + 1) :=
  floorLog2Aux_spec n n hn (Nat.le_refl n)

theorem divRoundHalfEven_one (n : Nat) : divRoundHalfEven n 1 = n := by
  simp [divRoundHalfEven, Nat.mod_one]

theorem toInt?_fin_mul (z : Int) (k : Nat) :
    (JSNumber.fin (z * 2 ^ k) k).toInt? = some z := by
  have hpos : (2 ^ k : Int) ≠ 0 := by positivity
  simp [JSNumber.toInt?, Int.mul_emod_left, Int.mul_ediv_cancel _ hpos]

set_option exponentiation.threshold 1100 in
/-- A positive integer below `2 ^ 53` is a binary64 value: rounding leaves it as it is. -/
theorem roundToDouble_nat (y : Nat) (hpos : 0 < y) (hlt : y < 2 ^ 53) :
    ∃ k : Nat, roundToDouble false y 1 = .fin ((y : Int) * 2 ^ k) k := by
  obtain ⟨hlo, hhi⟩ := floorLog2_spec y hpos
  have hL : floorLog2 y ≤ 52 := by
    by_contra hcon
    have h53 : 53 ≤ floorLog2 y := by omega
    have : 2 ^ 53 ≤ 2 ^ floorLog2 y := Nat.pow_le_pow_right (by norm_num) h53
    omega
  have hone : floorLog2 1 = 0 := by decide
  have hexp : ratioExponent y 1 = (floorLog2 y : Int) := by
    simp only [ratioExponent, hone, Nat.cast_zero, sub_zero, pow2LeRatio, Int.natCast_nonneg,
      if_true, Int.toNat_ofNat, one_mul, decide_eq_true_eq]
    rw [if_pos hlo]
  unfold roundToDouble
  rw [if_neg (by omega), hexp]
  have hmax : max (floorLog2 y : Int) (-1022) = floorLog2 y := by omega
  simp only [hmax]
  by_cases h52 : floorLog2 y = 52
  · refine ⟨0, ?_⟩
    have hbig : ¬ 2 ^ 1024 ≤ y :=
      not_le.2 (lt_trans hlt (Nat.pow_lt_pow_right (by norm_num) (by norm_num)))
    have hp : (0 : Int) ≤ ((52 : Nat) : Int) - 52 := by norm_num
    have htoNat : (((52 : Nat) : Int) - 52).toNat = 0 := by norm_num
    rw [h52]
    simp only [hp, if_true, htoNat, pow_zero, mul_one, divRoundHalfEven_one]
    rw [if_neg hbig]
    simp only [if_false, Bool.false_eq_true, one_mul]
  · refine ⟨52 - floorLog2 y, ?_⟩
    have hneg : ¬ (0 : Int) ≤ (floorLog2 y : Int) - 52 := by omega
    have htoNat : (-((floorLog2 y : Int) - 52)).toNat = 52 - floorLog2 y := by omega
    simp only [hneg, if_false, htoNat, divRoundHalfEven_one]
    simp

theorem digitChar_spec (d : Nat) (hd : d < 10) :
    isDecimalDigit (digitChar d) = true ∧ (digitChar d).toNat - 48 = d := by
  interval_cases d <;> decide

theorem isWhiteSpace_of_isDecimalDigit (c : Char) (hc : isDecimalDigit c = true) :
    isWhiteSpace c = false := by
  simp only [isDecimalDigit, Bool.and_eq_true, decide_eq_true_eq] at hc
  simp only [isWhiteSpace, Bool.or_eq_false_iff, Bool.and_eq_false_iff, decide_eq_false_iff_not]
  omega

theorem digitsValue_append (radix : Nat) (ds : List Nat) (d : Nat) :
    digitsValue radix (ds ++ [d]) = radix * digitsValue radix ds + d := by
  simp [digitsValue, List.foldl_append]

/-- The digits `natDigitsAux` puts in front of `acc` are decimal digits denoting `n`. -/
theorem natDigitsAux_spec (fuel : Nat) : ∀ (n : Nat) (acc : List Char), n < fuel →
    ∃ ds : List Char, natDigitsAux fuel n acc = ds ++ acc ∧ ds ≠ [] ∧
      (∀ c ∈ ds, isDecimalDigit c = true) ∧
      digitsValue 10 (ds.map fun c => c.toNat - 48) = n := by
  induction fuel with
  | zero => intro n acc h; omega
  | succ fuel ih =>
    intro n acc hlt
    unfold natDigitsAux
    split
    · rename_i h10
      refine ⟨[digitChar n], rfl, by simp, ?_, ?_⟩
      · intro c hc
        rw [List.mem_singleton] at hc
        subst hc
        exact (digitChar_spec n h10).1
      · simp [digitsValue, (digitChar_spec n h10).2]
    · rename_i h10
      obtain ⟨ds, heq, _, hdig, hval⟩ := ih (n / 10) (digitChar (n % 10) :: acc) (by omega)
      have hmod := digitChar_spec (n % 10) (Nat.mod_lt _ (by norm_num))
      refine ⟨ds ++ [digitChar (n % 10)], by simp [heq], by simp, ?_, ?_⟩
      · intro c hc
        rw [List.mem_append, List.mem_singleton] at hc
        rcases hc with hc | rfl
        · exact hdig c hc
        · exact hmod.1
      · rw [List.map_append, List.map_singleton, digitsValue_append, hval, hmod.2]
        omega

theorem natDigits_spec (n : Nat) :
    natDigits n ≠ [] ∧ (∀ c ∈ natDigits n, isDecimalDigit c = true) ∧
      digitsValue 10 ((natDigits n).map fun c => c.toNat - 48) = n := by
  obtain ⟨ds, heq, hne, hdig, hval⟩ := natDigitsAux_spec (n + 1) n [] (Nat.lt_succ_self n)
  rw [List.append_nil] at heq
  unfold natDigits
  rw [heq]
  exact ⟨hne, hdig, hval⟩

theorem dropWhile_isWhiteSpace_digits (ds : List Char)
    (hdig : ∀ c ∈ ds, isDecimalDigit c = true) : ds.dropWhile isWhiteSpace = ds := by
  cases ds with
  | nil => rfl
  | cons c cs =>
    have := isWhiteSpace_of_isDecimalDigit c (hdig c (List.mem_cons_self _ _))
    simp [List.dropWhile, this]

theorem trimChars_digits (ds : List Char) (hdig : ∀ c ∈ ds, isDecimalDigit c = true) :
    trimChars ds = ds := by
  unfold trimChars
  rw [dropWhile_isWhiteSpace_digits ds hdig,
    dropWhile_isWhiteSpace_digits ds.reverse (fun c hc => hdig c (List.mem_reverse.1 hc)),
    List.reverse_reverse]

theorem unsignedDecimal_digits (ds : List Char) (hne : ds ≠ [])
    (hdig : ∀ c ∈ ds, isDecimalDigit c = true) :
    unsignedDecimal ds = some (digitsValue 10 (ds.map fun c => c.toNat - 48), 0) := by
  have htake : ds.takeWhile isDecimalDigit = ds := List.takeWhile_eq_self_iff.2 hdig
  have hdrop : ds.dropWhile isDecimalDigit = [] := List.dropWhile_eq_nil_iff.2 hdig
  unfold unsignedDecimal
  simp [htake, hdrop, hne, exponentPart]

theorem numericLiteral_digits (ds : List Char) (hne : ds ≠ [])
    (hdig : ∀ c ∈ ds, isDecimalDigit c = true) :
    numericLiteral ds =
      decimalValue false (digitsValue 10 (ds.map fun c => c.toNat - 48)) 0 := by
  have hlit : unsignedLiteral false ds =
      decimalValue false (digitsValue 10 (ds.map fun c => c.toNat - 48)) 0 := by
    unfold unsignedLiteral
    have hinf : ds ≠ "Infinity".toList := by
      intro heq
      have := hdig 'I' (by rw [heq]; decide)
      exact absurd this (by decide)
    rw [if_neg hinf, unsignedDecimal_digits ds hne hdig]
  have hnot : ∀ (c : Char), isDecimalDigit c = false → ∀ (a : Char) (l : List Char),
      ds ≠ a :: c :: l := by
    intro c hc a l heq
    have := hdig c (by rw [heq]; simp)
    rw [hc] at this
    exact absurd this (by decide)
  have hnot1 : ∀ (c : Char), isDecimalDigit c = false → ∀ (l : List Char), ds ≠ c :: l := by
    intro c hc l heq
    have := hdig c (by rw [heq]; simp)
    rw [hc] at this
    exact absurd this (by decide)
  rw [← hlit]
  unfold numericLiteral
  split
  · exact absurd rfl (hnot 'b' (by decide) _ _)
  · exact absurd rfl (hnot 'B' (by decide) _ _)
  · exact absurd rfl (hnot 'o' (by decide) _ _)
  · exact absurd rfl (hnot 'O' (by decide) _ _)
  · exact absurd rfl (hnot 'x' (by decide) _ _)
  · exact absurd rfl (hnot 'X' (by decide) _ _)
  · exact absurd rfl (hnot1 '+' (by decide) _)
  · exact absurd rfl (hnot1 '-' (by decide) _)
  · rfl

/-- Reading back a numeral: `Number(String(y))` is `y` for a positive integer below
`2 ^ 53`. -/
theorem toNumber_numeral (y : Nat) (hpos : 0 < y) (hlt : y < 2 ^ 53) :
    (toNumber (numeral y)).toInt? = some (y : Int) := by
  obtain ⟨hne, hdig, hval⟩ := natDigits_spec y
  obtain ⟨k, hk⟩ := roundToDouble_nat y hpos hlt
  have hempty : (natDigits y).isEmpty = false := by
    cases hd : natDigits y with
    | nil => exact absurd hd hne
    | cons c cs => rfl
  unfold toNumber numeral
  simp only [String.toList, trimChars_digits _ hdig, hempty, Bool.false_eq_true, if_false]
  rw [numericLiteral_digits _ hne hdig, hval]
  simp only [decimalValue, le_refl, if_true, Int.toNat_zero, pow_zero, mul_one]
  rw [hk]
  exact toInt?_fin_mul _ _

theorem isInteger_range_iff (x : JSNumber) (a b : Int) :
    (x.isInteger && JSNumber.le (.ofInt a) x && JSNumber.le x (.ofInt b)) = true ↔
      ∃ n : Int, x.toInt? = some n ∧ a ≤ n ∧ n ≤ b := by
  cases x with
  | nan => simp [JSNumber.isInteger, JSNumber.toInt?]
  | inf negative => simp [JSNumber.isInteger, JSNumber.toInt?]
  | fin m k =>
    have hpos : (0 : Int) < 2 ^ k := by positivity
    by_cases hmod : m % (2 ^ k : Int) = 0
    · have hm : m = m / 2 ^ k * 2 ^ k := (Int.ediv_mul_cancel (Int.dvd_of_emod_eq_zero hmod)).symm
      simp only [JSNumber.isInteger, hmod, decide_True, Bool.true_and, JSNumber.ofInt,
        JSNumber.le, pow_zero, mul_one, Bool.and_eq_true, decide_eq_true_eq, JSNumber.toInt?,
        if_true, Option.some.injEq, exists_eq_left']
      constructor
      · rintro ⟨h1, h2⟩
        rw [hm] at h1 h2
        exact ⟨le_of_mul_le_mul_right h1 hpos, le_of_mul_le_mul_right h2 hpos⟩
      · rintro ⟨h1, h2⟩
        rw [hm]
        exact ⟨mul_le_mul_of_nonneg_right h1 hpos.le, mul_le_mul_of_nonneg_right h2 hpos.le⟩
    · simp [JSNumber.isInteger, JSNumber.toInt?, hmod]

theorem baseYearRefinement_iff (h : Host) (s : String) :
    baseYearRefinement h s = true ↔
      ∃ n : Int, (toNumber s).toInt? = some n ∧ 1980 ≤ n ∧ n ≤ h.currentYear := by
  unfold baseYearRefinement
  exact isInteger_range_iff _ _ _

theorem numeral_ne_empty (n : Nat) : numeral n ≠ "" := by
  intro heq
  have := (natDigits_spec n).1
  apply this
  have := congrArg String.toList heq
  simpa [numeral] using this

/-- C4. The rule of `startYear` accepts a text exactly when the text is non-empty and
`Number` reads it as an integer between 1980 and the current year. In particular, with
the clock within the years a date can hold, the numeral of every year from 1980 to the
current one is accepted, and the empty text, text that is no numeric literal (such as
"abc"), the numeral of 1979 and that of the year after the current one are rejected. -/
theorem start_year_rule (h : Host) (hClock : h.currentYear ≤ 275760) :
    (∀ s : String, (baseYearSchema h s).status = .valid ↔
        s ≠ "" ∧ ∃ n : Int, (toNumber s).toInt? = some n ∧ 1980 ≤ n ∧ n ≤ h.currentYear) ∧
    (∀ y : Nat, 1980 ≤ y → y ≤ h.currentYear → (baseYearSchema h (numeral y)).status = .valid) ∧
    (baseYearSchema h "").status ≠ .valid ∧
    (∀ s : String, toNumber s = .nan → (baseYearSchema h s).status ≠ .valid) ∧
    toNumber "abc" = .nan ∧
    (baseYearSchema h (numeral 1979)).status ≠ .valid ∧
    (baseYearSchema h (numeral (h.currentYear + 1))).status ≠ .valid := by
  have hiff : ∀ s : String, (baseYearSchema h s).status = .valid ↔
      s ≠ "" ∧ ∃ n : Int, (toNumber s).toInt? = some n ∧ 1980 ≤ n ∧ n ≤ h.currentYear := by
    intro s
    rw [baseYearSchema_valid_iff, baseYearRefinement_iff]
  have hreject : ∀ y : Nat, 0 < y → y < 2 ^ 53 → ¬ (1980 ≤ y ∧ y ≤ h.currentYear) →
      (baseYearSchema h (numeral y)).status ≠ .valid := by
    intro y hpos hlt hout hvalid
    obtain ⟨_, n, hn, h1, h2⟩ := (hiff _).1 hvalid
    rw [toNumber_numeral y hpos hlt, Option.some.injEq] at hn
    subst hn
    apply hout
    omega
  refine ⟨hiff, ?_, ?_, ?_, by decide, ?_, ?_⟩
  · intro y hlo hhi
    refine (hiff _).2 ⟨numeral_ne_empty y, y, ?_, by omega, by omega⟩
    exact toNumber_numeral y (by omega) (by norm_num; omega)
  · intro hvalid
    exact ((hiff _).1 hvalid).1 rfl
  · intro s hnan hvalid
    obtain ⟨_, n, hn, _⟩ := (hiff _).1 hvalid
    rw [hnan] at hn
    simp [JSNumber.toInt?] at hn
  · exact hreject 1979 (by norm_num) (by norm_num) (by omega)
  · exact hreject _ (by omega) (by norm_num; omega) (by omega)

theorem start_year_rule_witness :
    (∀ s : String, (baseYearSchema sampleHost s).status = .valid ↔
        s ≠ "" ∧ ∃ n : Int, (toNumber s).toInt? = some n ∧ 1980 ≤ n ∧
          n ≤ sampleHost.currentYear) ∧
    (∀ y : Nat, 1980 ≤ y → y ≤ sampleHost.currentYear →
        (baseYearSchema sampleHost (numeral y)).status = .valid) ∧
    (baseYearSchema sampleHost "").status ≠ .valid ∧
    (∀ s : String, toNumber s = .nan → (baseYearSchema sampleHost s).status ≠ .valid) ∧
    toNumber "abc" = .nan ∧
    (baseYearSchema sampleHost (numeral 1979)).status ≠ .valid ∧
    (baseYearSchema sampleHost (numeral (sampleHost.currentYear + 1))).status ≠ .valid :=
  start_year_rule sampleHost (by decide)

/-! ## The field rules of the form -/

/-- On text of the Basic Multilingual Plane the length is the number of characters. -/
theorem jsLength_eq_length (p : String) (hbmp : ∀ c ∈ p.toList, c.toNat < 0x10000) :
    jsLength p = p.length := by
  cases p with
  | mk cs =>
    simp only [jsLength, String.toList, String.length] at hbmp ⊢
    induction cs with
    | nil => rfl
    | cons c cs ih =>
      have hc : utf16Units c = 1 := by
        unfold utf16Units
        rw [if_pos (hbmp c (List.mem_cons_self _ _))]
      rw [List.map_cons, List.sum_cons, hc, List.length_cons,
        ih (fun d hd => hbmp d (List.mem_cons_of_mem _ hd))]
      omega

theorem programSchema_valid_iff (h : Host) (p : String) :
    (programSchema h p).status = .valid ↔
      1 ≤ jsLength p ∧ jsLength p ≤ 256 ∧
        ∀ c ∈ p.toList, h.category c = .L ∨ h.category c = .N ∨ isWhiteSpace c = true := by
  unfold programSchema
  rw [zString_valid_iff]
  simp only [List.mem_cons, List.mem_singleton, List.not_mem_nil, or_false, forall_eq_or_imp,
    forall_eq, minLength, maxLength, regexCheck, decide_eq_true_eq, programRegex,
    Bool.and_eq_true, Bool.not_eq_true', List.all_eq_true, programClass, Bool.or_eq_true]
  constructor
  · rintro ⟨h1, h2, _, h3⟩
    exact ⟨h1, h2, fun c hc => by simpa [or_assoc] using h3 c hc⟩
  · rintro ⟨h1, h2, h3⟩
    refine ⟨h1, h2, ?_, fun c hc => by simpa [or_assoc] using h3 c hc⟩
    have hne := (jsLength_pos_iff p).1 h1
    cases p with
    | mk cs =>
      cases cs with
      | nil => exact absurd rfl hne
      | cons c cs => rfl

/-- C3. The rule of `program` accepts a text exactly when its length is between 1 and 256
(as the host counts the characters of a string: in UTF-16 code units, which is the number
of characters for text of the Basic Multilingual Plane) and each of its characters is a
letter, a number or white space. So, for a category table that is right
on ASCII and gives no white space character the class of punctuation or symbols, "!!!" is
rejected, every text with a punctuation or symbol character is rejected, and "Math 101"
is accepted. -/
theorem program_rule (h : Host)
    (hAscii : ∀ c : Char, c.toNat < 128 → h.category c = asciiCategory c)
    (hSpace : ∀ c : Char, isWhiteSpace c = true → h.category c ≠ .P ∧ h.category c ≠ .S) :
    (∀ p : String, (programSchema h p).status = .valid ↔
        1 ≤ jsLength p ∧ jsLength p ≤ 256 ∧
          ∀ c ∈ p.toList, h.category c = .L ∨ h.category c = .N ∨ isWhiteSpace c = true) ∧
    (programSchema h "!!!").status ≠ .valid ∧
    (∀ p : String, (∃ c ∈ p.toList, h.category c = .P ∨ h.category c = .S) →
        (programSchema h p).status ≠ .valid) ∧
    (programSchema h "Math 101").status = .valid ∧
    (∀ p : String, (∀ c ∈ p.toList, c.toNat < 0x10000) → jsLength p = p.length) := by
  have hpunct : ∀ p : String, (∃ c ∈ p.toList, h.category c = .P ∨ h.category c = .S) →
      (programSchema h p).status ≠ .valid := by
    rintro p ⟨c, hc, hcat⟩ hvalid
    obtain ⟨_, _, hall⟩ := (programSchema_valid_iff h p).1 hvalid
    rcases hall c hc with hL | hN | hW
    · rcases hcat with hP | hS
      · rw [hL] at hP; exact absurd hP (by decide)
      · rw [hL] at hS; exact absurd hS (by decide)
    · rcases hcat with hP | hS
      · rw [hN] at hP; exact absurd hP (by decide)
      · rw [hN] at hS; exact absurd hS (by decide)
    · rcases hcat with hP | hS
      · exact (hSpace c hW).1 hP
      · exact (hSpace c hW).2 hS
  refine ⟨programSchema_valid_iff h, ?_, hpunct, ?_, jsLength_eq_length⟩
  · apply hpunct
    refine ⟨'!', by decide, Or.inl ?_⟩
    rw [hAscii _ (by decide)]
    decide
  · rw [programSchema_valid_iff]
    refine ⟨by decide, by decide, ?_⟩
    intro c hc
    have hmem : c ∈ ['M', 'a', 't', 'h', ' ', '1', '0', '1'] := hc
    simp only [List.mem_cons, List.mem_singleton, List.not_mem_nil, or_false] at hmem
    rcases hmem with rfl | rfl | rfl | rfl | rfl | rfl | rfl | rfl
    · left; rw [hAscii _ (by decide)]; decide
    · left; rw [hAscii _ (by decide)]; decide
    · left; rw [hAscii _ (by decide)]; decide
    · left; rw [hAscii _ (by decide)]; decide
    · right; right; decide
    · right; left; rw [hAscii _ (by decide)]; decide
    · right; left; rw [hAscii _ (by decide)]; decide
    · right; left; rw [hAscii _ (by decide)]; decide

theorem sampleHost_ascii (c : Char) (hc : c.toNat < 128) :
    sampleHost.category c = asciiCategory c := by
  simp [sampleHost, hc]

theorem sampleHost_space (c : Char) (hc : isWhiteSpace c = true) :
    sampleHost.category c ≠ .P ∧ sampleHost.category c ≠ .S := by
  by_cases h128 : c.toNat < 128
  · rw [sampleHost_ascii c h128]
    simp only [isWhiteSpace, Bool.or_eq_true, Bool.and_eq_true, decide_eq_true_eq] at hc
    unfold asciiCategory
    simp only
    split_ifs <;> first | (constructor <;> decide) | omega
  · simp only [sampleHost, h128, hc, if_false, if_true]
    split_ifs <;> constructor <;> decide

theorem program_rule_witness :
    (∀ p : String, (programSchema sampleHost p).status = .valid ↔
        1 ≤ jsLength p ∧ jsLength p ≤ 256 ∧
          ∀ c ∈ p.toList, sampleHost.category c = .L ∨ sampleHost.category c = .N ∨
            isWhiteSpace c = true) ∧
    (programSchema sampleHost "!!!").status ≠ .valid ∧
    (∀ p : String, (∃ c ∈ p.toList, sampleHost.category c = .P ∨ sampleHost.category c = .S) →
        (programSchema sampleHost p).status ≠ .valid) ∧
    (programSchema sampleHost "Math 101").status = .valid ∧
    (∀ p : String, (∀ c ∈ p.toList, c.toNat < 0x10000) → jsLength p = p.length) :=
  program_rule sampleHost sampleHost_ascii sampleHost_space

theorem documentTitleSchema_valid_iff (title : Option String) :
    (documentTitleSchema title).status = .valid ↔
      ∀ t, title = some t → 1 ≤ jsLength t ∧ jsLength t ≤ 256 := by
  cases title with
  | none => simp [documentTitleSchema, zOptional]
  | some t =>
    simp only [documentTitleSchema, zOptional, Option.some.injEq, forall_eq']
    rw [zString_valid_iff]
    simp [minLength, maxLength]

/-- The issues of `documentTitle`: a message for the empty text and one for a text that is
too long. -/
theorem documentTitleSchema_issues (t : String) :
    (t = "" → ZodIssue.mk [] "Введите название документа" ∈
        (documentTitleSchema (some t)).issues) ∧
    (256 < jsLength t → ZodIssue.mk [] "Максимум 256 символов" ∈
        (documentTitleSchema (some t)).issues) := by
  constructor
  · intro ht
    subst ht
    decide
  · intro hlong
    have hmax : ¬ jsLength t ≤ 256 := by omega
    simp only [documentTitleSchema, zOptional, zString]
    refine List.mem_map.2 ⟨maxLength 256 "Максимум 256 символов", ?_, rfl⟩
    simp [List.mem_filter, maxLength, hmax]

theorem mem_underKey (key : String) (issues : List ZodIssue) (message : String)
    (hmem : ZodIssue.mk [] message ∈ issues) :
    ZodIssue.mk [key] message ∈ underKey key issues := by
  unfold underKey
  exact List.mem_map.2 ⟨_, hmem, rfl⟩

/-- The hypotheses under which the resolver succeeds: every field schema finds its field
valid and the end year, when present and non-empty, is not below the start year. -/
theorem validate_ok (h : Host) (data : EducationInput)
    (hInstitution : (institutionSchema data.institution).status = .valid)
    (hProgram : (programSchema h data.program).status = .valid)
    (hStart : (baseYearSchema h data.startYear).status = .valid)
    (hEnd : (endYearSchema h data.endYear).status = .valid)
    (hStudy : (studyFormSchema data.studyForm).status = .valid)
    (hTitle : (documentTitleSchema data.documentTitle).status = .valid)
    (hUrl : (documentUrlSchema h data.documentUrl).status = .valid)
    (hCross : ∀ e, data.endYear = some e → e ≠ "" →
      (toNumber e).lt (toNumber data.startYear) = false) :
    validate h data = .ok data := by
  rw [validate_eq, if_pos]
  refine ⟨(objectSchema_valid_iff h data).2
    ⟨hInstitution, hProgram, hStart, hEnd, hStudy, hTitle, hUrl⟩, ?_⟩
  rw [crossFieldCheck_eq_nil_iff]
  intro e he hne _
  exact hCross e he hne

/-- C2, amended. For every form input that meets every field rule (each field schema
finds its field valid, and the end year, when present and non-empty, is not below the
start year), `validate` succeeds, the record it produces is the input itself, each field
as it was typed, white space included, and submitting hands exactly that record to the
store. -/
theorem validate_success_unchanged (h : Host) (data : EducationInput) (uuid : String)
    (state : StoreState)
    (hInstitution : (institutionSchema data.institution).status = .valid)
    (hProgram : (programSchema h data.program).status = .valid)
    (hStart : (baseYearSchema h data.startYear).status = .valid)
    (hEnd : (endYearSchema h data.endYear).status = .valid)
    (hStudy : (studyFormSchema data.studyForm).status = .valid)
    (hTitle : (documentTitleSchema data.documentTitle).status = .valid)
    (hUrl : (documentUrlSchema h data.documentUrl).status = .valid)
    (hCross : ∀ e, data.endYear = some e → e ≠ "" →
      (toNumber e).lt (toNumber data.startYear) = false) :
    validate h data = .ok data ∧
      submit h uuid data state = .ok (addEducation uuid data.toObject state) := by
  have hok := validate_ok h data hInstitution hProgram hStart hEnd hStudy hTitle hUrl hCross
  refine ⟨hok, ?_⟩
  unfold submit
  rw [hok]

theorem validate_success_unchanged_witness :
    validate sampleHost paddedInput = .ok paddedInput ∧
      submit sampleHost "u-1" paddedInput StoreState.initial =
        .ok (addEducation "u-1" paddedInput.toObject StoreState.initial) :=
  validate_success_unchanged sampleHost paddedInput "u-1" StoreState.initial (by decide)
    (by decide) (by decide) (by decide) (by decide) (by decide) (by decide) (by decide)

/-- C2, as stated, fails: an input whose institution is " MIT " meets every field rule
and `validate` succeeds on it, but the institution of the record produced is " MIT ", not
the trimmed "MIT". -/
theorem validate_does_not_trim :
    (objectSchema sampleHost paddedInput).status = .valid ∧
      crossFieldCheck paddedInput = [] ∧
      validate sampleHost paddedInput = .ok paddedInput ∧
      jsTrim paddedInput.institution = "MIT" ∧
      paddedInput.institution ≠ jsTrim paddedInput.institution := by
  decide

theorem validate_documentTitle_error (h : Host) (data : EducationInput) (t message : String)
    (hTitle : data.documentTitle = some t)
    (hmem : ZodIssue.mk [] message ∈ (documentTitleSchema (some t)).issues)
    (hinvalid : (documentTitleSchema (some t)).status ≠ .valid) :
    validate h data = .error ((objectSchema h data).issues ++ crossFieldCheck data) ∧
      ZodIssue.mk ["documentTitle"] message ∈
        (objectSchema h data).issues ++ crossFieldCheck data := by
  constructor
  · rw [validate_eq, if_neg]
    intro hboth
    have := ((objectSchema_valid_iff h data).1 hboth.1).2.2.2.2.2.1
    rw [hTitle] at this
    exact hinvalid this
  · apply List.mem_append_left
    have := mem_underKey "documentTitle" _ message hmem
    simp only [objectSchema, hTitle, List.mem_append]
    tauto

/-- C5, amended. `documentTitle` is optional: for every form input whose other fields
meet their rules, `validate` succeeds when `documentTitle` is absent or is a text of 1 to
256 UTF-16 code units, and fails with an issue on `documentTitle` when it is the empty
text or is longer than 256. -/
theorem document_title_rule (h : Host) (data : EducationInput)
    (hInstitution : (institutionSchema data.institution).status = .valid)
    (hProgram : (programSchema h data.program).status = .valid)
    (hStart : (baseYearSchema h data.startYear).status = .valid)
    (hEnd : (endYearSchema h data.endYear).status = .valid)
    (hStudy : (studyFormSchema data.studyForm).status = .valid)
    (hUrl : (documentUrlSchema h data.documentUrl).status = .valid)
    (hCross : ∀ e, data.endYear = some e → e ≠ "" →
      (toNumber e).lt (toNumber data.startYear) = false) :
    validate h { data with documentTitle := none } = .ok { data with documentTitle := none } ∧
    (∀ t : String, 1 ≤ jsLength t → jsLength t ≤ 256 →
      validate h { data with documentTitle := some t } =
        .ok { data with documentTitle := some t }) ∧
    (∀ t : String, t = "" ∨ 256 < jsLength t →
      ∃ issues message, validate h { data with documentTitle := some t } = .error issues ∧
        ZodIssue.mk ["documentTitle"] message ∈ issues) := by
  refine ⟨?_, ?_, ?_⟩
  · exact validate_ok h _ hInstitution hProgram hStart hEnd hStudy
      ((documentTitleSchema_valid_iff none).2 (by simp)) hUrl hCross
  · intro t h1 h2
    exact validate_ok h _ hInstitution hProgram hStart hEnd hStudy
      ((documentTitleSchema_valid_iff (some t)).2 (by simp [h1, h2])) hUrl hCross
  · intro t ht
    have hinvalid : (documentTitleSchema (some t)).status ≠ .valid := by
      rw [Ne, documentTitleSchema_valid_iff]
      intro hall
      have := hall t rfl
      rcases ht with rfl | hlong
      · exact absurd this.1 (by decide)
      · omega
    have hissue : ∃ message, ZodIssue.mk [] message ∈ (documentTitleSchema (some t)).issues := by
      rcases ht with rfl | hlong
      · exact ⟨_, (documentTitleSchema_issues "").1 rfl⟩
      · exact ⟨_, (documentTitleSchema_issues t).2 hlong⟩
    obtain ⟨message, hmem⟩ := hissue
    exact ⟨_, message, validate_documentTitle_error h _ t message rfl hmem hinvalid⟩

theorem document_title_rule_witness :
    validate sampleHost { sampleInput with documentTitle := none } =
      .ok { sampleInput with documentTitle := none } ∧
    (∀ t : String, 1 ≤ jsLength t → jsLength t ≤ 256 →
      validate sampleHost { sampleInput with documentTitle := some t } =
        .ok { sampleInput with documentTitle := some t }) ∧
    (∀ t : String, t = "" ∨ 256 < jsLength t →
      ∃ issues message,
        validate sampleHost { sampleInput with documentTitle := some t } = .error issues ∧
          ZodIssue.mk ["documentTitle"] message ∈ issues) :=
  document_title_rule sampleHost sampleInput (by decide) (by decide) (by decide) (by decide)
    (by decide) (by decide) (by decide)

/-- C5, as stated, fails: with the other fields meeting their rules, the empty text, a
text of at most 256 characters, is rejected as `documentTitle`. -/
theorem empty_document_title_rejected :
    validate sampleHost sampleInput = .ok sampleInput ∧
      jsLength "" ≤ 256 ∧
      validate sampleHost { sampleInput with documentTitle := some "" } =
        .error [⟨["documentTitle"], "Введите название документа"⟩] := by
  decide

/-! ## The record store -/

namespace JSObject

theorem get_cons (k v : String) (rest : JSObject) (key : String) :
    get ((k, v) :: rest) key =
      match get rest key with
      | some w => some w
      | none => if k = key then some v else none := rfl

theorem get_append_singleton (o : JSObject) (k v key : String) :
    get (o ++ [(k, v)]) key = if k = key then some v else get o key := by
  induction o with
  | nil => simp [get]
  | cons p rest ih =>
    obtain ⟨a, b⟩ := p
    rw [List.cons_append, get_cons, ih, get_cons]
    by_cases hk : k = key
    · simp [hk]
    · simp [hk]

theorem get_eq_none_of_no_key (o : JSObject) (key : String)
    (hno : o.any (fun p => p.1 = key) = false) : get o key = none := by
  induction o with
  | nil => rfl
  | cons p rest ih =>
    obtain ⟨a, b⟩ := p
    simp only [List.any_cons, Bool.or_eq_false_iff, decide_eq_false_iff_not] at hno
    rw [get_cons, ih hno.2]
    simp [hno.1]

theorem get_map_assign (o : JSObject) (k v key : String) :
    get (o.map fun p => if p.1 = k then (k, v) else p) key =
      if k = key then (if o.any (fun p => p.1 = k) then some v else none) else get o key := by
  induction o with
  | nil => simp [get]
  | cons p rest ih =>
    obtain ⟨a, b⟩ := p
    rw [List.map_cons]
    by_cases hk : k = key
    · subst hk
      by_cases ha : a = k
      · subst ha
        simp only [if_true, get_cons, ih, List.any_cons, decide_True, Bool.true_or]
        split <;> simp_all
      · simp only [ha, if_false, get_cons, ih, if_true, List.any_cons, decide_False,
          Bool.false_or]
        split <;> simp_all
    · by_cases ha : a = k
      · subst ha
        simp only [if_true, get_cons, ih, hk, if_false]
      · simp only [ha, if_false, get_cons, ih, hk]

/-- Reading after an assignment. -/
theorem get_set (o : JSObject) (k v key : String) :
    get (set o k v) key = if k = key then some v else get o key := by
  unfold set
  split
  · rename_i hany
    rw [get_map_assign, hany]
    simp
  · rename_i hany
    exact get_append_singleton o k v key

/-- Reading a spread: a property of the source wins over one of the target. -/
theorem get_spread (source : JSObject) : ∀ (target : JSObject) (key : String),
    get (spread target source) key =
      match get source key with
      | some v => some v
      | none => get target key := by
  induction source with
  | nil => intro target key; simp [spread, get]
  | cons p rest ih =>
    intro target key
    obtain ⟨a, b⟩ := p
    have hstep : spread target ((a, b) :: rest) = spread (set target a b) rest := rfl
    rw [hstep, ih, get_cons, get_set]
    cases get rest key with
    | some w => rfl
    | none => by_cases hk : a = key <;> simp [hk]

end JSObject

/-- The record `addEducation` appends carries every property of its argument. -/
theorem addEducation_carries (uuid : String) (education : JSObject) (key value : String)
    (hget : JSObject.get education key = some value) :
    JSObject.get (JSObject.spread [("id", uuid)] education) key = some value := by
  rw [JSObject.get_spread, hget]

/-- The identifier of the record `addEducation` appends: that of its argument when the
argument has one, the generated one otherwise. -/
theorem addEducation_id (uuid : String) (education : JSObject) :
    JSObject.get (JSObject.spread [("id", uuid)] education) "id" =
      some ((JSObject.get education "id").getD uuid) := by
  rw [JSObject.get_spread]
  cases JSObject.get education "id" with
  | some v => rfl
  | none => rfl

/-- C6. After `addEducation(r1)` then `addEducation(r2)` on a store holding the records
`L`, the store holds `L` followed by two new records in that order: the records of `L`
keep their places, the length grows by 2, and the new records carry every field value of
`r1` and of `r2`. -/
theorem addEducation_twice (state : StoreState) (u1 u2 : String) (r1 r2 : JSObject) :
    ∃ r1' r2' : JSObject,
      (addEducation u2 r2 (addEducation u1 r1 state)).educations =
        state.educations ++ [r1', r2'] ∧
      (addEducation u2 r2 (addEducation u1 r1 state)).educations.length =
        state.educations.length + 2 ∧
      (∀ i, i < state.educations.length →
        (addEducation u2 r2 (addEducation u1 r1 state)).educations[i]? =
          state.educations[i]?) ∧
      (∀ key value, JSObject.get r1 key = some value → JSObject.get r1' key = some value) ∧
      (∀ key value, JSObject.get r2 key = some value → JSObject.get r2' key = some value) := by
  refine ⟨JSObject.spread [("id", u1)] r1, JSObject.spread [("id", u2)] r2, ?_, ?_, ?_, ?_, ?_⟩
  · simp [addEducation]
  · simp [addEducation]
  · intro i hi
    simp only [addEducation, List.append_assoc]
    rw [List.getElem?_append_left hi]
  · exact fun key value => addEducation_carries u1 r1 key value
  · exact fun key value => addEducation_carries u2 r2 key value

/-- C7, at the failing input: the store holds one record with id "a", the generator
returns the fresh, non-empty "b", and the object passed to `addEducation` carries its own
`id` field "a". The record added has id "a", not the generated "b", and the ids of the
store are no longer distinct. -/
theorem addEducation_id_overridden :
    (StoreState.mk [[("id", "a")]]).ids.Nodup ∧
      some "b" ∉ (StoreState.mk [[("id", "a")]]).ids ∧
      (addEducation "b" [("id", "a")] ⟨[[("id", "a")]]⟩).educations =
        [[("id", "a")], [("id", "a")]] ∧
      (addEducation "b" [("id", "a")] ⟨[[("id", "a")]]⟩).ids = [some "a", some "a"] ∧
      ¬ (addEducation "b" [("id", "a")] ⟨[[("id", "a")]]⟩).ids.Nodup := by
  decide

/-- For an argument without an `id` field, `addEducation` keeps the identifiers distinct
and gives the new record the generated one. -/
theorem addEducation_ids_nodup (state : StoreState) (uuid : String) (education : JSObject)
    (hnoId : JSObject.get education "id" = none) (hfresh : some uuid ∉ state.ids)
    (hnodup : state.ids.Nodup) :
    (addEducation uuid education state).ids = state.ids ++ [some uuid] ∧
      (addEducation uuid education state).ids.Nodup := by
  have hids : (addEducation uuid education state).ids = state.ids ++ [some uuid] := by
    simp [addEducation, StoreState.ids, addEducation_id, hnoId]
  rw [hids]
  refine ⟨rfl, ?_⟩
  rw [List.nodup_append]
  refine ⟨hnodup, List.nodup_singleton _, ?_⟩
  intro a ha hb
  rw [List.mem_singleton] at hb
  subst hb
  exact hfresh ha

/-- The object the form hands to the store has no `id` field. -/
theorem toObject_no_id (d : EducationInput) : JSObject.get d.toObject "id" = none := by
  apply JSObject.get_eq_none_of_no_key
  obtain ⟨i, p, s, e, f, t, u⟩ := d
  cases e <;> cases t <;> cases u <;> simp [EducationInput.toObject]

/-! ## The carousel -/

theorem floor_intCast_div_pos (a b : Int) (hb : 0 < b) : ⌊(a : ℚ) / (b : ℚ)⌋ = a / b := by
  obtain ⟨d, rfl⟩ := Int.eq_ofNat_of_zero_le hb.le
  exact_mod_cast Rat.floor_intCast_div_natCast a d

/-- C8. For `n` cards and an integer layout with a positive card width, a non-negative
gap and a non-negative viewport width, the carousel computes
`visibleCount = max(1, floor((viewportWidth + gap) / (cardWidth + gap)))` and
`maxIndex = max(0, n - visibleCount)`; for 5 cards of width 300 with gap 20 in a viewport
of width 640 this gives 2 and 3. -/
theorem carousel_counts (n : Nat) (layout : Layout) (hWidth : 0 < layout.cardWidth)
    (hGap : 0 ≤ layout.gap) (hViewport : 0 ≤ layout.viewportWidth) :
    visibleCount layout =
        max 1 ⌊((layout.viewportWidth + layout.gap : Int) : ℚ) /
          ((layout.cardWidth + layout.gap : Int) : ℚ)⌋ ∧
      maxIndex n layout = max 0 ((n : Int) - visibleCount layout) ∧
      visibleCount ⟨300, 20, 640⟩ = 2 ∧ maxIndex 5 ⟨300, 20, 640⟩ = 3 := by
  have hstep : 0 < layout.cardWidth + layout.gap := by omega
  have _ := hViewport
  refine ⟨?_, rfl, by decide, by decide⟩
  rw [floor_intCast_div_pos _ _ hstep]
  unfold visibleCount
  simp only
  split
  · rename_i hguard
    rcases hguard with hzero | hneg
    · rw [hzero, zero_add, Int.ediv_eq_zero_of_lt hGap (by omega)]
      rfl
    · omega
  · rfl

theorem carousel_counts_witness :
    visibleCount ⟨300, 20, 640⟩ =
        max 1 ⌊(((⟨300, 20, 640⟩ : Layout).viewportWidth + (⟨300, 20, 640⟩ : Layout).gap : Int) : ℚ) /
          (((⟨300, 20, 640⟩ : Layout).cardWidth + (⟨300, 20, 640⟩ : Layout).gap : Int) : ℚ)⌋ ∧
      maxIndex 5 ⟨300, 20, 640⟩ = max 0 ((5 : Nat) - visibleCount ⟨300, 20, 640⟩) ∧
      visibleCount ⟨300, 20, 640⟩ = 2 ∧ maxIndex 5 ⟨300, 20, 640⟩ = 3 :=
  carousel_counts 5 ⟨300, 20, 640⟩ (by decide) (by decide) (by decide)

/-- C9. For an index `i` with `0 ≤ i ≤ maxIndex`, `goNext` yields `i + 1` when
`i < maxIndex` and leaves `i` unchanged when `i = maxIndex`; `goPrev` yields `i - 1` when
`i > 0` and leaves `i` unchanged when `i = 0`. With `maxIndex = 3`, four `goNext` from 0
yield 1, 2, 3, 3 and four `goPrev` from 3 yield 2, 1, 0, 0. -/
theorem carousel_navigation (m i : Int) (hMax : 0 ≤ m) (hLow : 0 ≤ i) (hHigh : i ≤ m) :
    (i < m → goNext m i = i + 1) ∧ (i = m → goNext m i = i) ∧
      (0 < i → goPrev i = i - 1) ∧ (i = 0 → goPrev i = i) ∧
      0 ≤ goNext m i ∧ goNext m i ≤ m ∧ 0 ≤ goPrev i ∧ goPrev i ≤ m ∧
      [(goNext 3)^[1] 0, (goNext 3)^[2] 0, (goNext 3)^[3] 0, (goNext 3)^[4] 0] = [1, 2, 3, 3] ∧
      [goPrev^[1] 3, goPrev^[2] 3, goPrev^[3] 3, goPrev^[4] 3] = [2, 1, 0, 0] := by
  unfold goNext goPrev
  refine ⟨?_, ?_, ?_, ?_, ?_, ?_, ?_, ?_, by decide, by decide⟩
  · intro h; rw [if_pos h]
  · intro h; rw [if_neg (by omega)]
  · intro h; rw [if_pos h]
  · intro h; rw [if_neg (by omega)]
  all_goals split <;> omega

theorem carousel_navigation_witness :
    ((2 : Int) < 3 → goNext 3 2 = 2 + 1) ∧ ((2 : Int) = 3 → goNext 3 2 = 2) ∧
      ((0 : Int) < 2 → goPrev 2 = 2 - 1) ∧ ((2 : Int) = 0 → goPrev 2 = 2) ∧
      0 ≤ goNext 3 2 ∧ goNext 3 2 ≤ 3 ∧ 0 ≤ goPrev 2 ∧ goPrev 2 ≤ 3 ∧
      [(goNext 3)^[1] 0, (goNext 3)^[2] 0, (goNext 3)^[3] 0, (goNext 3)^[4] 0] = [1, 2, 3, 3] ∧
      [goPrev^[1] 3, goPrev^[2] 3, goPrev^[3] 3, goPrev^[4] 3] = [2, 1, 0, 0] :=
  carousel_navigation 3 2 (by decide) (by decide) (by decide)

/-! ## The year options of the dropdown -/

/-- With a round of fuel for every year left, the loop pushes the years from `year` down to
`yearStart`. -/
theorem yearLoop_eq (yearStart : Int) (fuel : Nat) : ∀ (year : Int) (years : List DropdownOption),
    (year - yearStart + 1).toNat ≤ fuel →
    yearLoop fuel year yearStart years =
      years ++ (List.range (year - yearStart + 1).toNat).map fun i : Nat => yearOption (year - i) := by
  induction fuel with
  | zero =>
    intro year years hfuel
    have hzero : (year - yearStart + 1).toNat = 0 := by omega
    simp [yearLoop, hzero]
  | succ fuel ih =>
    intro year years hfuel
    unfold yearLoop
    split
    · rename_i hge
      have hcount : (year - yearStart + 1).toNat = (year - 1 - yearStart + 1).toNat + 1 := by omega
      rw [ih (year - 1) _ (by omega), hcount, List.range_succ_eq_map, List.map_cons,
        List.map_map, List.append_assoc]
      congr 1
      simp only [List.singleton_append, Nat.cast_zero, sub_zero, List.cons.injEq, true_and]
      apply List.map_congr_left
      intro i _
      simp only [Function.comp_apply, Nat.succ_eq_add_one, Nat.cast_add, Nat.cast_one]
      congr 1
      omega
    · rename_i hlt
      have hzero : (year - yearStart + 1).toNat = 0 := by omega
      simp [hzero]

/-- The memo `yearOptions` under year generation: the years from `yearEnd` down to
`yearStart`, `yearEnd - yearStart + 1` of them when the range is not empty, else none. -/
theorem yearOptions_generated (p : DropdownProps) (hGenerate : p.generateYears = true) :
    yearOptions p =
      (List.range (p.yearEnd - p.yearStart + 1).toNat).map fun i : Nat =>
        yearOption (p.yearEnd - i) := by
  unfold yearOptions
  rw [hGenerate]
  simp only [Bool.not_true, Bool.false_eq_true, if_false]
  rw [yearLoop_eq p.yearStart _ p.yearEnd [] (Nat.le_refl _), List.nil_append]

/-- The open menu is built from `options` alone: under year generation it still offers
the options of the caller, and cannot be rendered when the caller supplies none. -/
theorem menuEntries_of_options (p : DropdownProps) :
    menuEntries p = p.options.map fun os =>
      (if p.allowEmpty then [MenuEntry.noSelection] else []) ++ os.map MenuEntry.option := rfl

/-- C11, at the failing input: a dropdown configured to generate the years 2024 to 2026
whose caller also supplies the option "x". The memo `yearOptions` holds the years 2026,
2025, 2024 and the button shows the label of a selected year, but the open menu offers
the option "x" and none of the years; when the caller supplies no options the menu cannot
be rendered at all. -/
theorem menu_ignores_generated_years :
    sampleYearProps.generateYears = true ∧
      yearOptions sampleYearProps = [yearOption 2026, yearOption 2025, yearOption 2024] ∧
      buttonText sampleYearProps "2025" = "2025" ∧
      menuEntries sampleYearProps = some [MenuEntry.option ⟨.text "x", "X"⟩] ∧
      menuEntries { sampleYearProps with options := none } = none := by
  decide

/-! ## The year effect of the form -/

theorem lt_of_toInt? (x y : JSNumber) (a b : Int) (hx : x.toInt? = some a)
    (hy : y.toInt? = some b) : x.lt y = decide (a < b) := by
  cases x with
  | nan => simp [JSNumber.toInt?] at hx
  | inf negative => simp [JSNumber.toInt?] at hx
  | fin m k =>
    cases y with
    | nan => simp [JSNumber.toInt?] at hy
    | inf negative => simp [JSNumber.toInt?] at hy
    | fin n l =>
      have hk : (0 : Int) < 2 ^ k := by positivity
      have hl : (0 : Int) < 2 ^ l := by positivity
      simp only [JSNumber.toInt?] at hx hy
      split at hx
      · rename_i hmk
        split at hy
        · rename_i hnl
          rw [Option.some.injEq] at hx hy
          have hm : m = a * 2 ^ k := by
            rw [← hx]; exact (Int.ediv_mul_cancel (Int.dvd_of_emod_eq_zero hmk)).symm
          have hn : n = b * 2 ^ l := by
            rw [← hy]; exact (Int.ediv_mul_cancel (Int.dvd_of_emod_eq_zero hnl)).symm
          have hiff : m * 2 ^ l < n * 2 ^ k ↔ a < b := by
            rw [hm, hn]
            have hprod : (0 : Int) < 2 ^ k * 2 ^ l := mul_pos hk hl
            constructor
            · intro hlt
              have : a * (2 ^ k * 2 ^ l) < b * (2 ^ k * 2 ^ l) := by nlinarith
              exact lt_of_mul_lt_mul_right this hprod.le
            · intro hlt
              have : a * (2 ^ k * 2 ^ l) < b * (2 ^ k * 2 ^ l) :=
                mul_lt_mul_of_pos_right hlt hprod
              nlinarith
          simp only [JSNumber.lt, hiff]
        · simp at hy
      · simp at hx

theorem clearEndYear_of_lt (startYear endYear : String) (hStart : startYear ≠ "")
    (hEnd : endYear ≠ "") (hlt : (toNumber endYear).lt (toNumber startYear) = true) :
    clearEndYear startYear endYear = "" := by
  simp [clearEndYear, (truthy_iff startYear).2 hStart, (truthy_iff endYear).2 hEnd, hlt]

theorem clearEndYear_of_not (startYear endYear : String)
    (hnot : ¬ (startYear ≠ "" ∧ endYear ≠ "" ∧
      (toNumber endYear).lt (toNumber startYear) = true)) :
    clearEndYear startYear endYear = endYear := by
  unfold clearEndYear
  split
  · rename_i hcond
    simp only [Bool.and_eq_true] at hcond
    exact absurd ⟨(truthy_iff _).1 hcond.1.1, (truthy_iff _).1 hcond.1.2, hcond.2⟩ hnot
  · rfl

/-- C12. The year rule of the form, as a function `(startYear, endYear) -> endYear'`,
returns the empty text when both years are non-empty and the end year is numerically below
the start year, and returns `endYear` unchanged otherwise. So after it has fired no state
has both years present with the end year below the start year (start 2020 with end 2019
becomes start 2020 with an empty end year, as does every pair of year numerals with the
end below the start), firing again changes nothing, and the start year is never
changed. -/
theorem year_effect_rule :
    (∀ startYear endYear : String, startYear ≠ "" → endYear ≠ "" →
        (toNumber endYear).lt (toNumber startYear) = true →
        clearEndYear startYear endYear = "") ∧
      (∀ startYear endYear : String,
        ¬ (startYear ≠ "" ∧ endYear ≠ "" ∧
          (toNumber endYear).lt (toNumber startYear) = true) →
        clearEndYear startYear endYear = endYear) ∧
      (∀ fields : YearFields,
        ¬ ((yearEffect fields).startYear ≠ "" ∧ (yearEffect fields).endYear ≠ "" ∧
          (toNumber (yearEffect fields).endYear).lt
            (toNumber (yearEffect fields).startYear) = true)) ∧
      yearEffect ⟨"2020", "2019"⟩ = ⟨"2020", ""⟩ ∧
      (∀ a b : Nat, 0 < a → a < b → b < 2 ^ 53 →
        yearEffect ⟨numeral b, numeral a⟩ = ⟨numeral b, ""⟩) ∧
      (∀ fields : YearFields, yearEffect (yearEffect fields) = yearEffect fields) ∧
      (∀ fields : YearFields, (yearEffect fields).startYear = fields.startYear) := by
  have hstable : ∀ fields : YearFields,
      ¬ ((yearEffect fields).startYear ≠ "" ∧ (yearEffect fields).endYear ≠ "" ∧
        (toNumber (yearEffect fields).endYear).lt
          (toNumber (yearEffect fields).startYear) = true) := by
    rintro ⟨s, e⟩ ⟨hs, he, hlt⟩
    simp only [yearEffect] at hs he hlt
    by_cases hcond : s ≠ "" ∧ e ≠ "" ∧ (toNumber e).lt (toNumber s) = true
    · exact he (clearEndYear_of_lt s e hcond.1 hcond.2.1 hcond.2.2)
    · rw [clearEndYear_of_not s e hcond] at he hlt
      exact hcond ⟨hs, he, hlt⟩
  refine ⟨clearEndYear_of_lt, clearEndYear_of_not, hstable, by decide, ?_, ?_, fun _ => rfl⟩
  · intro a b ha hab hb
    have hlt : (toNumber (numeral a)).lt (toNumber (numeral b)) = true := by
      rw [lt_of_toInt? _ _ a b (toNumber_numeral a ha (by omega))
        (toNumber_numeral b (by omega) hb)]
      simpa using hab
    simp only [yearEffect]
    rw [clearEndYear_of_lt _ _ (numeral_ne_empty b) (numeral_ne_empty a) hlt]
  · intro fields
    have := hstable fields
    simp only [yearEffect] at this ⊢
    rw [clearEndYear_of_not _ _ this]

/-! ## The cross-field rule and the rules of the year fields -/

theorem yearMessage_ne_crossField (h : Host) : yearMessage h ≠ crossFieldIssue.message := by
  intro heq
  have htake := congrArg (fun s : String => s.toList.take 6) heq
  simp only [yearMessage, String.toList, String.data_append] at htake
  have hleft : List.take 6 ("Год от 1980 до ".data ++ (numeral h.currentYear).data) =
      ['Г', 'о', 'д', ' ', 'о', 'т'] := rfl
  rw [hleft] at htake
  exact absurd htake (by decide)

/-- The schema of `endYear` raises no issue or the one issue of its refinement. -/
theorem endYearSchema_issues (h : Host) (data : Option String) :
    (endYearSchema h data).issues = [] ∨
      (endYearSchema h data).issues = [ZodIssue.mk [] (yearMessage h)] := by
  have hinner : (zOptional (zString []) data).status = .valid ∧
      (zOptional (zString []) data).issues = [] := by
    cases data <;> exact ⟨rfl, rfl⟩
  have hfirst : (zRefine (endYearRefinement h) (yearMessage h)
        (zOptional (zString []) data)).status = .valid ∧
      (zRefine (endYearRefinement h) (yearMessage h)
        (zOptional (zString []) data)).issues = [] ∨
      (zRefine (endYearRefinement h) (yearMessage h)
        (zOptional (zString []) data)).status = .dirty ∧
      (zRefine (endYearRefinement h) (yearMessage h)
        (zOptional (zString []) data)).issues = [ZodIssue.mk [] (yearMessage h)] := by
    unfold zRefine
    rw [hinner.1]
    simp only
    split
    · exact Or.inl hinner
    · right
      simp [hinner.2]
  have hsecond : (zLiteral "" data).status = .valid → (zLiteral "" data).issues = [] := by
    unfold zLiteral
    split <;> simp
  unfold endYearSchema zOr
  rcases hfirst with ⟨hv, hi⟩ | ⟨hd, hi⟩
  · rw [if_pos hv]
    exact Or.inl hi
  · rw [if_neg (by rw [hd]; simp)]
    split
    · rename_i hsv
      exact Or.inl (hsecond hsv)
    · exact Or.inr hi

/-- No field schema raises the issue of the cross-field rule. -/
theorem crossFieldIssue_not_mem_objectSchema (h : Host) (data : EducationInput) :
    crossFieldIssue ∉ (objectSchema h data).issues := by
  intro hmem
  simp only [objectSchema, List.mem_append, underKey, List.mem_map] at hmem
  have hpath : ∀ (key : String) (i : ZodIssue), key ≠ "endYear" →
      ZodIssue.mk (key :: i.path) i.message ≠ crossFieldIssue := by
    intro key i hkey heq
    have := congrArg ZodIssue.path heq
    simp only [crossFieldIssue, List.cons.injEq] at this
    exact hkey this.1
  rcases hmem with (((((⟨i, _, hi⟩ | ⟨i, _, hi⟩) | ⟨i, _, hi⟩) | ⟨i, hmemEnd, hi⟩) |
    ⟨i, _, hi⟩) | ⟨i, _, hi⟩) | ⟨i, _, hi⟩
  · exact hpath _ i (by decide) hi
  · exact hpath _ i (by decide) hi
  · exact hpath _ i (by decide) hi
  · have hmsg := congrArg ZodIssue.message hi
    simp only at hmsg
    rcases endYearSchema_issues h data.endYear with hnil | hone
    · rw [hnil] at hmemEnd
      exact absurd hmemEnd (List.not_mem_nil _)
    · rw [hone, List.mem_singleton] at hmemEnd
      rw [hmemEnd] at hmsg
      exact yearMessage_ne_crossField h hmsg
  · exact hpath _ i (by decide) hi
  · exact hpath _ i (by decide) hi
  · exact hpath _ i (by decide) hi

/-! ## The index of the carousel -/

theorem maxIndex_nonneg (totalCards : Nat) (layout : Layout) : 0 ≤ maxIndex totalCards layout :=
  le_max_left _ _

/-- The index stays within `[0, maxIndex]` under every event. -/
theorem SliderState.step_inBounds (s : SliderState) (event : SliderEvent)
    (hLow : 0 ≤ s.currentIndex) (hHigh : s.currentIndex ≤ maxIndex s.totalCards s.layout) :
    0 ≤ (s.step event).currentIndex ∧
      (s.step event).currentIndex ≤ maxIndex (s.step event).totalCards (s.step event).layout := by
  cases event with
  | prevClick =>
    simp only [SliderState.step, goPrev]
    split <;> constructor <;> omega
  | nextClick =>
    simp only [SliderState.step, goNext]
    split <;> constructor <;> omega
  | change totalCards layout =>
    have hmax := maxIndex_nonneg totalCards layout
    simp only [SliderState.step, clampIndex]
    split
    · rename_i heq
      rw [heq]
      exact ⟨hLow, hHigh⟩
    · exact ⟨le_min hLow hmax, min_le_right _ _⟩

theorem SliderState.run_inBounds (events : List SliderEvent) : ∀ s : SliderState,
    0 ≤ s.currentIndex → s.currentIndex ≤ maxIndex s.totalCards s.layout →
    0 ≤ (s.run events).currentIndex ∧
      (s.run events).currentIndex ≤ maxIndex (s.run events).totalCards (s.run events).layout := by
  induction events with
  | nil => intro s hLow hHigh; exact ⟨hLow, hHigh⟩
  | cons event rest ih =>
    intro s hLow hHigh
    obtain ⟨h1, h2⟩ := SliderState.step_inBounds s event hLow hHigh
    exact ih (s.step event) h1 h2

/-- C14. Starting from index 0, after every sequence of clicks on the arrows and of
changes of the data or the layout, each followed by the clamp when `maxIndex` has changed,
the index `i` satisfies `0 ≤ i ≤ maxIndex` for the current `maxIndex`; and the clamp
leaves an index that is already within `[0, maxIndex]` unchanged. -/
theorem carousel_index_in_bounds (totalCards : Nat) (layout : Layout)
    (events : List SliderEvent) :
    0 ≤ ((SliderState.initial totalCards layout).run events).currentIndex ∧
      ((SliderState.initial totalCards layout).run events).currentIndex ≤
        maxIndex ((SliderState.initial totalCards layout).run events).totalCards
          ((SliderState.initial totalCards layout).run events).layout ∧
      (∀ m i : Int, 0 ≤ i → i ≤ m → clampIndex m i = i) ∧
      (∀ m i : Int, 0 ≤ m → 0 ≤ i → 0 ≤ clampIndex m i ∧ clampIndex m i ≤ m) := by
  obtain ⟨h1, h2⟩ := SliderState.run_inBounds events (SliderState.initial totalCards layout)
    (le_refl _) (maxIndex_nonneg totalCards layout)
  refine ⟨h1, h2, ?_, ?_⟩
  · intro m i _ hi
    exact min_eq_left hi
  · intro m i hm hi
    exact ⟨le_min hi hm, min_le_right _ _⟩

/-! ## The errors of the resolver -/

/-- An issue is among the errors of the resolver exactly when it was an entry already, or
no entry has its key and it is the first of the issues with that key. -/
theorem mem_parseErrorSchemaAux (issues : List ZodIssue) :
    ∀ (errors : List ZodIssue) (x : ZodIssue),
      x ∈ parseErrorSchemaAux errors issues ↔
        x ∈ errors ∨ ((∀ e ∈ errors, joinPath e.path ≠ joinPath x.path) ∧
          issues.find? (fun j => decide (joinPath j.path = joinPath x.path)) = some x) := by
  induction issues with
  | nil =>
    intro errors x
    simp [parseErrorSchemaAux]
  | cons i rest ih =>
    intro errors x
    unfold parseErrorSchemaAux
    split
    · rename_i hany
      simp only [List.any_eq_true, decide_eq_true_eq] at hany
      obtain ⟨e, he, hpath⟩ := hany
      rw [ih, List.find?_cons]
      by_cases hix : joinPath i.path = joinPath x.path
      · simp only [hix, decide_True]
        constructor
        · rintro (hmem | ⟨hno, _⟩)
          · exact Or.inl hmem
          · exact absurd (hpath.trans hix) (hno e he)
        · rintro (hmem | ⟨hno, _⟩)
          · exact Or.inl hmem
          · exact absurd (hpath.trans hix) (hno e he)
      · simp only [hix, decide_False]
    · rename_i hany
      have hnone : ∀ e ∈ errors, joinPath e.path ≠ joinPath i.path := by
        intro e he hpath
        apply hany
        simp only [List.any_eq_true, decide_eq_true_eq]
        exact ⟨e, he, hpath⟩
      rw [ih, List.find?_cons]
      by_cases hix : joinPath i.path = joinPath x.path
      · simp only [hix, decide_True, Option.some.injEq, List.mem_append, List.mem_singleton]
        constructor
        · rintro ((hmem | hxi) | ⟨hno, _⟩)
          · exact Or.inl hmem
          · exact Or.inr ⟨fun e he => hix ▸ hnone e he, hxi.symm⟩
          · exact absurd hix (hno i (by simp))
        · rintro (hmem | ⟨_, hxi⟩)
          · exact Or.inl (Or.inl hmem)
          · exact Or.inl (Or.inr hxi.symm)
      · simp only [hix, decide_False, List.mem_append, List.mem_singleton]
        constructor
        · rintro ((hmem | hxi) | ⟨hno, hfind⟩)
          · exact Or.inl hmem
          · exact absurd (by rw [hxi]) hix
          · exact Or.inr ⟨fun e he => hno e (Or.inl he), hfind⟩
        · rintro (hmem | ⟨hno, hfind⟩)
          · exact Or.inl (Or.inl hmem)
          · refine Or.inr ⟨?_, hfind⟩
            rintro e (he | he)
            · exact hno e he
            · rw [he]; exact hix

/-- The errors of the resolver hold, for every key, the first issue with that key. -/
theorem mem_parseErrorSchema (issues : List ZodIssue) (x : ZodIssue) :
    x ∈ parseErrorSchema issues ↔
      issues.find? (fun j => decide (joinPath j.path = joinPath x.path)) = some x := by
  unfold parseErrorSchema
  rw [mem_parseErrorSchemaAux]
  simp

theorem parseErrorSchema_nil_iff (issues : List ZodIssue) :
    parseErrorSchema issues = [] ↔ issues = [] := by
  constructor
  · intro hnil
    cases issues with
    | nil => rfl
    | cons i rest =>
      have : i ∈ parseErrorSchema (i :: rest) := by
        rw [mem_parseErrorSchema]
        simp
      rw [hnil] at this
      exact absurd this (List.not_mem_nil _)
  · rintro rfl
    rfl

/-- The resolver succeeds exactly when the schema does, with the same values. -/
theorem resolver_ok_iff (h : Host) (data values : EducationInput) :
    resolver h data = .ok values ↔ validate h data = .ok values := by
  unfold resolver
  cases validate h data <;> simp

/-! ## The paths of the issues of the fields -/

theorem zString_paths (checks : List StringCheck) (data : String) :
    ∀ i ∈ (zString checks data).issues, i.path = [] := by
  intro i hi
  simp only [zString, List.mem_map] at hi
  obtain ⟨c, _, rfl⟩ := hi
  rfl

theorem zRefine_paths {α : Type} (pred : α → Bool) (message : String) (inner : ParseResult α)
    (hinner : ∀ i ∈ inner.issues, i.path = []) :
    ∀ i ∈ (zRefine pred message inner).issues, i.path = [] := by
  intro i hi
  unfold zRefine at hi
  split at hi
  · exact hinner i hi
  · split at hi
    · exact hinner i hi
    · simp only [List.mem_append, List.mem_singleton] at hi
      rcases hi with hi | rfl
      · exact hinner i hi
      · rfl

theorem zOptional_paths {α : Type} (schema : α → ParseResult α)
    (hschema : ∀ a, ∀ i ∈ (schema a).issues, i.path = []) (data : Option α) :
    ∀ i ∈ (zOptional schema data).issues, i.path = [] := by
  cases data with
  | none => intro i hi; simp [zOptional] at hi
  | some a => exact hschema a

theorem zLiteral_paths (lit : String) (data : Option String) :
    ∀ i ∈ (zLiteral lit data).issues, i.path = [] := by
  intro i hi
  unfold zLiteral at hi
  split at hi
  · simp at hi
  · rw [List.mem_singleton] at hi
    rw [hi]

theorem zOr_paths {α : Type} (first second : ParseResult α)
    (hfirst : ∀ i ∈ first.issues, i.path = []) (hsecond : ∀ i ∈ second.issues, i.path = []) :
    ∀ i ∈ (zOr first second).issues, i.path = [] := by
  intro i hi
  unfold zOr at hi
  split_ifs at hi
  · exact hfirst i hi
  · exact hsecond i hi
  · exact hfirst i hi
  · exact hsecond i hi
  · rw [List.mem_singleton] at hi
    rw [hi]

/-- The schema of `endYear` either finds its value valid and raises nothing, or leaves it
dirty with the one issue of its refinement. -/
theorem endYearSchema_cases (h : Host) (data : Option String) :
    ((endYearSchema h data).status = .valid ∧ (endYearSchema h data).issues = []) ∨
      ((endYearSchema h data).status = .dirty ∧
        (endYearSchema h data).issues = [ZodIssue.mk [] (yearMessage h)]) := by
  have hinner : (zOptional (zString []) data).status = .valid ∧
      (zOptional (zString []) data).issues = [] := by
    cases data <;> exact ⟨rfl, rfl⟩
  have hfirst : ((zRefine (endYearRefinement h) (yearMessage h)
        (zOptional (zString []) data)).status = .valid ∧
      (zRefine (endYearRefinement h) (yearMessage h)
        (zOptional (zString []) data)).issues = []) ∨
      ((zRefine (endYearRefinement h) (yearMessage h)
        (zOptional (zString []) data)).status = .dirty ∧
      (zRefine (endYearRefinement h) (yearMessage h)
        (zOptional (zString []) data)).issues = [ZodIssue.mk [] (yearMessage h)]) := by
    unfold zRefine
    rw [hinner.1]
    simp only
    split
    · exact Or.inl hinner
    · right
      simp [hinner.2]
  have hsecond : (zLiteral "" data).status = .valid → (zLiteral "" data).issues = [] := by
    unfold zLiteral
    split <;> simp
  unfold endYearSchema zOr
  rcases hfirst with ⟨hv, hi⟩ | ⟨hd, hi⟩
  · rw [if_pos hv]
    exact Or.inl ⟨hv, hi⟩
  · rw [if_neg (by rw [hd]; simp)]
    split
    · rename_i hsv
      exact Or.inl ⟨hsv, hsecond hsv⟩
    · exact Or.inr ⟨hd, hi⟩

theorem endYearSchema_valid_iff_issues (h : Host) (data : Option String) :
    (endYearSchema h data).status = .valid ↔ (endYearSchema h data).issues = [] := by
  rcases endYearSchema_cases h data with ⟨hv, hi⟩ | ⟨hd, hi⟩
  · simp [hv, hi]
  · simp [hd, hi]

/-- When the end year passes its own rule, no issue of the fields has the key `endYear`. -/
theorem objectSchema_no_endYear_key (h : Host) (data : EducationInput)
    (hEnd : (endYearSchema h data.endYear).issues = []) :
    ∀ j ∈ (objectSchema h data).issues, joinPath j.path ≠ joinPath crossFieldIssue.path := by
  intro j hj
  have hkey : ∀ (key : String) (i : ZodIssue), i.path = [] → key ≠ "endYear" →
      joinPath (ZodIssue.mk (key :: i.path) i.message).path ≠ joinPath crossFieldIssue.path := by
    intro key i hpath hkey heq
    simp only [hpath] at heq
    exact hkey heq
  simp only [objectSchema, List.mem_append, underKey, List.mem_map, hEnd, List.not_mem_nil,
    false_and, exists_false, or_false] at hj
  rcases hj with ((((⟨i, hi, rfl⟩ | ⟨i, hi, rfl⟩) | ⟨i, hi, rfl⟩) | ⟨i, hi, rfl⟩) |
    ⟨i, hi, rfl⟩) | ⟨i, hi, rfl⟩
  · exact hkey _ i (zString_paths _ _ i hi) (by decide)
  · exact hkey _ i (zString_paths _ _ i hi) (by decide)
  · exact hkey _ i (zRefine_paths _ _ _ (zString_paths _ _) i hi) (by decide)
  · exact hkey _ i (zString_paths _ _ i hi) (by decide)
  · exact hkey _ i (zOptional_paths _ (zString_paths _) _ i hi) (by decide)
  · exact hkey _ i (zOr_paths _ _ (zOptional_paths _ (zString_paths _) _) (zLiteral_paths _ _)
      i hi) (by decide)

/-- When the end year fails its own rule, its issue is among those of the fields, with the
key `endYear`. -/
theorem objectSchema_endYear_issue (h : Host) (data : EducationInput)
    (hEnd : (endYearSchema h data.endYear).issues = [ZodIssue.mk [] (yearMessage h)]) :
    ZodIssue.mk ["endYear"] (yearMessage h) ∈ (objectSchema h data).issues := by
  simp only [objectSchema, List.mem_append, hEnd, underKey, List.map_cons, List.map_nil,
    List.mem_singleton, true_or, or_true]

/-- The errors the form receives hold the cross-field message exactly when the end year
passes its own rule, both years are non-empty and the end year is numerically below the
start year. -/
theorem resolver_cross_field_iff (h : Host) (data : EducationInput) :
    (∃ errors, resolver h data = .error errors ∧ crossFieldIssue ∈ errors) ↔
      (endYearSchema h data.endYear).status = .valid ∧
        ∃ e, data.endYear = some e ∧ e ≠ "" ∧ data.startYear ≠ "" ∧
          (toNumber e).lt (toNumber data.startYear) = true := by
  have hres : ∀ errors, resolver h data = .error errors ↔
      ¬ ((objectSchema h data).status = .valid ∧ crossFieldCheck data = []) ∧
        errors = parseErrorSchema ((objectSchema h data).issues ++ crossFieldCheck data) := by
    intro errors
    unfold resolver
    rw [validate_eq]
    split_ifs with hc
    · simp [hc]
    · simp only [Except.error.injEq, hc, not_false_eq_true, true_and]
      exact eq_comm
  constructor
  · rintro ⟨errors, herr, hmem⟩
    obtain ⟨_, rfl⟩ := (hres errors).1 herr
    rw [mem_parseErrorSchema, List.find?_append] at hmem
    rcases endYearSchema_cases h data.endYear with ⟨hv, hi⟩ | ⟨_, hi⟩
    · have hnone : (objectSchema h data).issues.find?
          (fun j => decide (joinPath j.path = joinPath crossFieldIssue.path)) = none := by
        rw [List.find?_eq_none]
        intro j hj
        simpa using objectSchema_no_endYear_key h data hi j hj
      rw [hnone, Option.none_or] at hmem
      have hcross : crossFieldIssue ∈ crossFieldCheck data := List.mem_of_find?_eq_some hmem
      refine ⟨hv, ?_⟩
      by_contra hnone'
      have hnil : crossFieldCheck data = [] := by
        rw [crossFieldCheck_eq_nil_iff]
        intro e he hne hs
        by_contra hlt
        exact hnone' ⟨e, he, hne, hs, by simpa using hlt⟩
      rw [hnil] at hcross
      exact absurd hcross (List.not_mem_nil _)
    · have hin := objectSchema_endYear_issue h data hi
      cases hfind : (objectSchema h data).issues.find?
          (fun j => decide (joinPath j.path = joinPath crossFieldIssue.path)) with
      | none =>
        rw [List.find?_eq_none] at hfind
        exact absurd (by simp [crossFieldIssue]) (hfind _ hin)
      | some j =>
        rw [hfind] at hmem
        have hjc : j = crossFieldIssue := by simpa [Option.or] using hmem
        have hj := List.mem_of_find?_eq_some hfind
        rw [hjc] at hj
        exact absurd hj (crossFieldIssue_not_mem_objectSchema h data)
  · rintro ⟨hv, e, he, hne, hs, hlt⟩
    have hi := (endYearSchema_valid_iff_issues h data.endYear).1 hv
    have hcross := crossFieldCheck_of_lt data e he hne hs hlt
    refine ⟨_, (hres _).2 ⟨?_, rfl⟩, ?_⟩
    · rw [hcross]
      simp
    · rw [mem_parseErrorSchema, List.find?_append, hcross]
      have hnone : (objectSchema h data).issues.find?
          (fun j => decide (joinPath j.path = joinPath crossFieldIssue.path)) = none := by
        rw [List.find?_eq_none]
        intro j hj
        simpa using objectSchema_no_endYear_key h data hi j hj
      rw [hnone, Option.none_or]
      simp

/-- C13, amended. The cross-field rule does not wait for the start year to pass its own
rule. For every form input in which `endYear` fails its individual rule (the end year "99"
with the start year "1990") the errors the form receives from `validate` do not contain
the cross-field message on `endYear`. When `endYear` passes its rule they contain it
exactly when both years are non-empty and the end year is numerically below the start
year, also when `startYear` fails its own rule (the start year "3000" with the end year
"2000"); only a start year that is empty or not a number keeps the message away. -/
theorem cross_field_rule_at_resolver (h : Host) (data : EducationInput) :
    ((∃ errors, resolver h data = .error errors ∧ crossFieldIssue ∈ errors) ↔
        (endYearSchema h data.endYear).status = .valid ∧
          ∃ e, data.endYear = some e ∧ e ≠ "" ∧ data.startYear ≠ "" ∧
            (toNumber e).lt (toNumber data.startYear) = true) ∧
      (∀ errors, resolver h data = .error errors →
        (endYearSchema h data.endYear).status ≠ .valid → crossFieldIssue ∉ errors) ∧
      (∀ errors, resolver h data = .error errors →
        (data.startYear = "" ∨ toNumber data.startYear = .nan) → crossFieldIssue ∉ errors) ∧
      resolver sampleHost { sampleInput with startYear := "1990", endYear := some "99" } =
        .error [⟨["endYear"], "Год от 1980 до 2026"⟩] ∧
      resolver sampleHost { sampleInput with startYear := "3000", endYear := some "2000" } =
        .error [⟨["startYear"], "Год от 1980 до 2026"⟩, crossFieldIssue] := by
  have hiff := resolver_cross_field_iff h data
  refine ⟨hiff, ?_, ?_, by decide, by decide⟩
  · intro errors herr hinvalid hmem
    exact hinvalid (hiff.1 ⟨errors, herr, hmem⟩).1
  · intro errors herr hstart hmem
    obtain ⟨_, e, _, _, hs, hlt⟩ := hiff.1 ⟨errors, herr, hmem⟩
    rcases hstart with hempty | hnan
    · exact hs hempty
    · rw [hnan] at hlt
      cases hn : toNumber e <;> simp [hn, JSNumber.lt] at hlt

/-- C13, as stated, fails: the start year "3000" fails its own rule, the end year "2000"
passes its own, and the errors the form receives from `validate` contain the cross-field
message on `endYear`. -/
theorem cross_field_message_with_invalid_start_year :
    (baseYearSchema sampleHost "3000").status ≠ .valid ∧
      (endYearSchema sampleHost (some "2000")).status = .valid ∧
      resolver sampleHost { sampleInput with startYear := "3000", endYear := some "2000" } =
        .error [⟨["startYear"], "Год от 1980 до 2026"⟩, crossFieldIssue] ∧
      crossFieldIssue.path = ["endYear"] := by
  decide

/-! ## The events of the dropdown -/

theorem renderThrows_eq (p : DropdownProps) (isOpen : Bool) :
    renderThrows p isOpen = (isOpen && p.options.isNone) := by
  unfold renderThrows menuEntries
  cases p.options <;> rfl

/-- A control that is rendered open has a menu: its caller supplied options. -/
theorem DropdownState.step_menu (p : DropdownProps) (s : DropdownState)
    (event : DropdownEvent)
    (hInv : s.crashed = false → s.isOpen = true → (menuEntries p).isSome = true) :
    (s.step p event).crashed = false → (s.step p event).isOpen = true →
      (menuEntries p).isSome = true := by
  unfold DropdownState.step
  split
  · exact hInv
  · intro hLive hOpen
    simp only [renderThrows] at hLive hOpen
    rw [hOpen, Bool.true_and] at hLive
    cases hmenu : menuEntries p with
    | none => rw [hmenu] at hLive; exact absurd hLive (by decide)
    | some entries => rfl

theorem DropdownState.run_menu (p : DropdownProps) (events : List DropdownEvent) :
    ∀ s : DropdownState,
      (s.crashed = false → s.isOpen = true → (menuEntries p).isSome = true) →
      (s.run p events).crashed = false → (s.run p events).isOpen = true →
        (menuEntries p).isSome = true := by
  induction events with
  | nil => intro s hInv; exact hInv
  | cons event rest ih =>
    intro s hInv
    exact ih (s.step p event) (DropdownState.step_menu p s event hInv)

/-- C10. The flag `open` starts false and a click on the button flips it (rendering the
open control throws when the caller supplied no options, which is all that can keep the
control from opening). From every open state the control can reach, a pointer-down
outside the control and an Escape key-press each close it, the change callback not being
called and `value` staying as it is; a click on a menu button calls the change callback
exactly once, with the value of the option converted to text (a text as it is, an integer
as its decimal numeral, the empty text for the "no selection" entry), and closes the
control. -/
theorem dropdown_behaviour (p : DropdownProps) (value : String) (events : List DropdownEvent)
    (s : DropdownState) (hReach : s = (DropdownState.initial value).run p events)
    (hLive : s.crashed = false) (hOpen : s.isOpen = true) :
    DropdownState.initial value = ⟨false, value, [], false⟩ ∧
      (∀ t : DropdownState, t.crashed = false →
        t.step p .toggleClick =
          { t with isOpen := !t.isOpen, crashed := !t.isOpen && p.options.isNone }) ∧
      s.step p (.pointerDown false) = { s with isOpen := false } ∧
      s.step p (.keyDown "Escape") = { s with isOpen := false } ∧
      (∃ entries, menuEntries p = some entries ∧
        ∀ index entry, entries[index]? = some entry →
          s.step p (.entryClick index) =
            { s with isOpen := false, value := entry.changeText,
                     changes := s.changes ++ [entry.changeText] }) ∧
      MenuEntry.noSelection.changeText = "" ∧
      (∀ text label, (MenuEntry.option ⟨.text text, label⟩).changeText = text) ∧
      (∀ (n : Nat) (small : (n : Int).natAbs < 10 ^ 21) (label : String),
        (MenuEntry.option ⟨.integer n small, label⟩).changeText = numeral n) ∧
      (∀ (n : Nat) (small : (-(n : Int)).natAbs < 10 ^ 21) (label : String), 0 < n →
        (MenuEntry.option ⟨.integer (-(n : Int)) small, label⟩).changeText =
          "-" ++ numeral n) ∧
      (DropdownState.initial "2026").run sampleProps [.toggleClick, .entryClick 0] =
        ⟨false, "", [""], false⟩ ∧
      (DropdownState.initial "").run sampleProps [.toggleClick, .entryClick 1] =
        ⟨false, "2026", ["2026"], false⟩ ∧
      (DropdownState.initial "2026").run sampleProps [.toggleClick, .entryClick 2] =
        ⟨false, "2025", ["2025"], false⟩ ∧
      (DropdownState.initial "2026").run sampleProps [.toggleClick, .entryClick 3] =
        ⟨false, "-7", ["-7"], false⟩ ∧
      (DropdownState.initial "2026").run sampleProps [.toggleClick, .pointerDown false] =
        DropdownState.initial "2026" ∧
      (DropdownState.initial "2026").run sampleProps [.toggleClick, .keyDown "Escape"] =
        DropdownState.initial "2026" ∧
      (DropdownState.initial "2026").run sampleBareProps [.toggleClick] =
        ⟨true, "2026", [], true⟩ := by
  have hmenu : (menuEntries p).isSome = true := by
    have := DropdownState.run_menu p events (DropdownState.initial value)
      (fun _ hopen => absurd hopen (by simp [DropdownState.initial]))
    rw [← hReach] at this
    exact this hLive hOpen
  obtain ⟨entries, hentries⟩ := Option.isSome_iff_exists.1 hmenu
  have hclosed : renderThrows p false = false := rfl
  refine ⟨rfl, ?_, ?_, ?_, ⟨entries, hentries, ?_⟩, rfl, fun _ _ => rfl, ?_, ?_,
    by decide, by decide, by decide, by decide, by decide, by decide, by decide⟩
  · intro t ht
    simp only [DropdownState.step, ht, Bool.false_eq_true, if_false, DropdownState.handle,
      renderThrows_eq]
  · cases s
    simp only at hLive hOpen
    subst hLive hOpen
    simp [DropdownState.step, DropdownState.handle, renderThrows]
  · cases s
    simp only at hLive hOpen
    subst hLive hOpen
    simp [DropdownState.step, DropdownState.handle, renderThrows]
  · intro index entry hentry
    cases s
    simp only at hLive hOpen
    subst hLive hOpen
    simp [DropdownState.step, DropdownState.handle, renderThrows, hentries, hentry]
  · intro n small label
    simp [MenuEntry.changeText, OptionValue.toText, intNumeral]
  · intro n small label hn
    have hneg : -(n : Int) < 0 := by omega
    simp [MenuEntry.changeText, OptionValue.toText, intNumeral, hneg]

theorem dropdown_behaviour_witness :
    DropdownState.initial "2026" = ⟨false, "2026", [], false⟩ ∧
      (∀ t : DropdownState, t.crashed = false →
        t.step sampleProps .toggleClick =
          { t with isOpen := !t.isOpen, crashed := !t.isOpen && sampleProps.options.isNone }) ∧
      (⟨true, "2026", [], false⟩ : DropdownState).step sampleProps (.pointerDown false) =
        { (⟨true, "2026", [], false⟩ : DropdownState) with isOpen := false } ∧
      (⟨true, "2026", [], false⟩ : DropdownState).step sampleProps (.keyDown "Escape") =
        { (⟨true, "2026", [], false⟩ : DropdownState) with isOpen := false } ∧
      (∃ entries, menuEntries sampleProps = some entries ∧
        ∀ index entry, entries[index]? = some entry →
          (⟨true, "2026", [], false⟩ : DropdownState).step sampleProps (.entryClick index) =
            { (⟨true, "2026", [], false⟩ : DropdownState) with
                isOpen := false, value := entry.changeText,
                changes := (⟨true, "2026", [], false⟩ : DropdownState).changes ++
                  [entry.changeText] }) ∧
      MenuEntry.noSelection.changeText = "" ∧
      (∀ text label, (MenuEntry.option ⟨.text text, label⟩).changeText = text) ∧
      (∀ (n : Nat) (small : (n : Int).natAbs < 10 ^ 21) (label : String),
        (MenuEntry.option ⟨.integer n small, label⟩).changeText = numeral n) ∧
      (∀ (n : Nat) (small : (-(n : Int)).natAbs < 10 ^ 21) (label : String), 0 < n →
        (MenuEntry.option ⟨.integer (-(n : Int)) small, label⟩).changeText =
          "-" ++ numeral n) ∧
      (DropdownState.initial "2026").run sampleProps [.toggleClick, .entryClick 0] =
        ⟨false, "", [""], false⟩ ∧
      (DropdownState.initial "").run sampleProps [.toggleClick, .entryClick 1] =
        ⟨false, "2026", ["2026"], false⟩ ∧
      (DropdownState.initial "2026").run sampleProps [.toggleClick, .entryClick 2] =
        ⟨false, "2025", ["2025"], false⟩ ∧
      (DropdownState.initial "2026").run sampleProps [.toggleClick, .entryClick 3] =
        ⟨false, "-7", ["-7"], false⟩ ∧
      (DropdownState.initial "2026").run sampleProps [.toggleClick, .pointerDown false] =
        DropdownState.initial "2026" ∧
      (DropdownState.initial "2026").run sampleProps [.toggleClick, .keyDown "Escape"] =
        DropdownState.initial "2026" ∧
      (DropdownState.initial "2026").run sampleBareProps [.toggleClick] =
        ⟨true, "2026", [], true⟩ :=
  dropdown_behaviour sampleProps "2026" [.toggleClick] ⟨true, "2026", [], false⟩ (by decide)
    rfl rfl

end Education
